import Mathlib

/-!
Verification of the crypto market-data validator (`src/validators.py`).

The validator operates on pandas DataFrames.  We embed a DataFrame as an
ordered list of column names together with an ordered list of rows, each row
an ordered list of cells positionally aligned with the column list.  A cell is
either missing (None/NaN), a numeric value (we use `ℚ` for the numeric
domain), a non-numeric text value, or a boolean (the validator's flag
columns).  `pd.to_numeric(..., errors='coerce')` is embedded as `toNumeric`:
cells whose content parses as a number are represented as `Cell.num` directly,
so coercion succeeds exactly on `num` cells and yields `none` on missing or
textual cells, never raising.  Column assignment `df[c] = ...` overwrites the
column in place when `c` is already present and appends a new last column
otherwise; `df.loc[mask, c] = True` sets the masked entries of an existing
column.  The one unguarded multi-column selection in the source,
`df[REQUIRED_FIELDS]` inside `flag_missing_values`, raises `KeyError` when a
required column is absent; that method is therefore embedded with an `Option`
result, `none` modelling the raise.
-/

namespace CryptoValidator

/-- A cell of the table: missing (None/NaN), numeric, textual, or boolean. -/
inductive Cell where
  | missing : Cell
  | num (q : ℚ) : Cell
  | text (s : String) : Cell
  | bool (b : Bool) : Cell
deriving DecidableEq

/-- Embedding of `pd.to_numeric(..., errors='coerce')` on one cell: numeric
cells coerce to their value, anything else coerces to NaN (`none`). -/
def toNumeric : Cell → Option ℚ
  | Cell.num q => some q
  | _ => none

/-- Embedding of `pd.isnull` on one cell. -/
def isNull : Cell → Bool
  | Cell.missing => true
  | _ => false

/-- A DataFrame: named columns and positionally aligned rows. -/
structure DF where
  cols : List String
  rows : List (List Cell)
deriving DecidableEq

/-- Well-formedness: every row has exactly one cell per column. -/
def DF.Aligned (df : DF) : Prop :=
  ∀ r ∈ df.rows, r.length = df.cols.length

instance (df : DF) : Decidable df.Aligned :=
  inferInstanceAs (Decidable (∀ r ∈ df.rows, r.length = df.cols.length))

/-- Index of a column name (first occurrence), `none` if absent. -/
def colIdx (df : DF) (c : String) : Option Nat :=
  df.cols.findIdx? (fun x => x = c)

/-- The cell of row `r` in column `c` of `df` (missing if the column is absent). -/
def rowCell (df : DF) (r : List Cell) (c : String) : Cell :=
  match colIdx df c with
  | some j => r.getD j Cell.missing
  | none => Cell.missing

/-- The column `c` as a list of cells, one per row (all missing if absent). -/
def colCells (df : DF) (c : String) : List Cell :=
  df.rows.map (fun r => rowCell df r c)

/-- Column extraction `df[c]`: `none` when the column is absent (a raise). -/
def getCol? (df : DF) (c : String) : Option (List Cell) :=
  if c ∈ df.cols then some (colCells df c) else none

/-- Column assignment `df[c] = vals`: overwrite in place when present,
append as a new last column otherwise. -/
def setCol (df : DF) (c : String) (vals : List Cell) : DF :=
  match colIdx df c with
  | some j => ⟨df.cols, List.zipWith (fun r v => r.set j v) df.rows vals⟩
  | none => ⟨df.cols ++ [c], List.zipWith (fun r v => r ++ [v]) df.rows vals⟩

/-- Appending a fresh last column (the effect of `setCol` on an absent name). -/
def appendCol (df : DF) (vals : List Cell) (c : String) : DF :=
  ⟨df.cols ++ [c], List.zipWith (fun r v => r ++ [v]) df.rows vals⟩

/-- Column initialization `df[c] = False` (broadcast over all rows). -/
def initFlag (df : DF) (c : String) : DF :=
  setCol df c (df.rows.map (fun _ => Cell.bool false))

/-- Masked assignment `df.loc[mask, c] = True` on an existing column. -/
def locSetTrue (df : DF) (c : String) (mask : List Bool) : DF :=
  setCol df c
    (List.zipWith (fun old m => if m then Cell.bool true else old) (colCells df c) mask)

/-- `CryptoDataValidator.REQUIRED_FIELDS`. -/
def REQUIRED_FIELDS : List String :=
  ["id", "symbol", "name", "current_price",
   "market_cap", "total_volume", "circulating_supply"]

/-- `CryptoDataValidator.NUMERIC_FIELDS`. -/
def NUMERIC_FIELDS : List String :=
  ["current_price", "market_cap", "market_cap_rank",
   "total_volume", "high_24h", "low_24h",
   "price_change_24h", "price_change_percentage_24h",
   "market_cap_change_24h", "market_cap_change_percentage_24h",
   "circulating_supply", "total_supply", "max_supply"]

/-- `PRICE_RANGE['min']` = 0.000001 USD. -/
def PRICE_MIN : ℚ := 1 / 1000000

/-- `PRICE_RANGE['max']` = 1,000,000 USD. -/
def PRICE_MAX : ℚ := 1000000

/-- Flag column name for `flag_invalid_numeric_types`. -/
def HAS_NON_NUMERIC_VALUE : String := "has_non_numeric_value"

/-- Flag column name for `flag_abnormal_prices`. -/
def HAS_ABNORMAL_PRICE : String := "has_abnormal_price"

/-- Flag column name for `flag_invalid_market_cap`. -/
def HAS_INVALID_MARKET_CAP : String := "has_invalid_market_cap"

/-- Flag column name for `flag_missing_values`. -/
def HAS_MISSING_VALUES : String := "has_missing_values"

/-- Flag column name for `flag_duplicates`. -/
def HAS_DUPLICATE : String := "has_duplicate"

/-- A cell that is present yet fails numeric coercion — the per-cell condition
`pd.to_numeric(df[field]).isna() & df[field].notna()` of
`flag_invalid_numeric_types`. -/
def nonNumericCell (cl : Cell) : Bool :=
  (toNumeric cl).isNone && !(isNull cl)

/-- `flag_invalid_numeric_types`: initialize the flag column to False, then
for each numeric field present as a column set the flag where
`pd.to_numeric(df[field]).isna() & df[field].notna()`. -/
def flag_invalid_numeric_types (df : DF) : DF :=
  let df0 := initFlag df HAS_NON_NUMERIC_VALUE
  NUMERIC_FIELDS.foldl (fun acc field =>
    if field ∈ acc.cols then
      locSetTrue acc HAS_NON_NUMERIC_VALUE
        ((colCells acc field).map nonNumericCell)
    else acc) df0

/-- `flag_abnormal_prices`: initialize the flag column to False, then if
`current_price` is present set the flag where the coerced price is non-NaN and
below `PRICE_MIN` or above `PRICE_MAX`. -/
def flag_abnormal_prices (df : DF) : DF :=
  let df0 := initFlag df HAS_ABNORMAL_PRICE
  if "current_price" ∈ df0.cols then
    let numeric_prices := (colCells df0 "current_price").map toNumeric
    let abnormal_price := numeric_prices.map (fun o =>
      match o with
      | some p => decide (p < PRICE_MIN) || decide (PRICE_MAX < p)
      | none => false)
    locSetTrue df0 HAS_ABNORMAL_PRICE abnormal_price
  else df0

/-- The per-row mask `can_validate` of `flag_invalid_market_cap`: the row has
complete (coercible) data in all three inputs, the supply and price coerced
values arriving zipped as a pair. -/
def mcCanValidate (a : Option ℚ) (bc : Option ℚ × Option ℚ) : Bool :=
  a.isSome && (bc.1.isSome && bc.2.isSome)

/-- The per-row mask `negative_cap | error_too_large` of
`flag_invalid_market_cap` on coerced values: complete data and either a
non-positive market cap or a relative error of at least 5 percent. -/
def mcPairInvalid (a : Option ℚ) (bc : Option ℚ × Option ℚ) : Bool :=
  match a, bc.1, bc.2 with
  | some m, some p, some s =>
      decide (m ≤ 0) || (decide (0 < m) && decide ((5 : ℚ)/100 ≤ |m - p * s| / m))
  | _, _, _ => false

/-- `flag_invalid_market_cap`: initialize the flag column to False; when
`market_cap`, `current_price` and `circulating_supply` are all present, coerce
the three columns, and on the rows where all three are non-NaN flag
non-positive market caps and relative errors of at least 5 percent. -/
def flag_invalid_market_cap (df : DF) : DF :=
  let df0 := initFlag df HAS_INVALID_MARKET_CAP
  if ["market_cap", "current_price", "circulating_supply"].all
      (fun c => decide (c ∈ df0.cols)) then
    let numeric_market_cap := (colCells df0 "market_cap").map toNumeric
    let numeric_price := (colCells df0 "current_price").map toNumeric
    let numeric_supply := (colCells df0 "circulating_supply").map toNumeric
    let can_validate := List.zipWith mcCanValidate
      numeric_market_cap (List.zip numeric_price numeric_supply)
    if can_validate.any (fun b => b) then
      let mask := List.zipWith mcPairInvalid
        numeric_market_cap (List.zip numeric_price numeric_supply)
      locSetTrue df0 HAS_INVALID_MARKET_CAP mask
    else df0
  else df0

/-- `flag_missing_values`: initialize the flag column to False, then flag rows
where `df[REQUIRED_FIELDS].isnull().any(axis=1)`.  The selection
`df[REQUIRED_FIELDS]` raises `KeyError` when a required column is absent;
`none` models that raise. -/
def flag_missing_values (df : DF) : Option DF :=
  let df0 := initFlag df HAS_MISSING_VALUES
  if REQUIRED_FIELDS.all (fun c => decide (c ∈ df0.cols)) then
    let has_missing := df0.rows.map (fun r =>
      REQUIRED_FIELDS.any (fun c => isNull (rowCell df0 r c)))
    some (locSetTrue df0 HAS_MISSING_VALUES has_missing)
  else none

/-- Mask of `df.duplicated(subset=['id'], keep='first')` over the id column:
a row is marked when its id occurred in `seen` or earlier in the list. -/
def dupMask : List Cell → List Cell → List Bool
  | _, [] => []
  | seen, x :: xs => decide (x ∈ seen) :: dupMask (x :: seen) xs

/-- `flag_duplicates`: initialize the flag column to False, then if `id` is
present set the flag on rows whose id duplicates an earlier row's id. -/
def flag_duplicates (df : DF) : DF :=
  let df0 := initFlag df HAS_DUPLICATE
  if "id" ∈ df0.cols then
    locSetTrue df0 HAS_DUPLICATE (dupMask [] (colCells df0 "id"))
  else df0

/-- `SchemaValidationStatus` from `constants.py`. -/
inductive SchemaValidationStatus where
  | valid
  | emptyData
  | invalidType
  | missingRequiredFields
deriving DecidableEq

/-- The string `.value` of a `SchemaValidationStatus` member. -/
def SchemaValidationStatus.value : SchemaValidationStatus → String
  | .valid => "valid"
  | .emptyData => "empty_data"
  | .invalidType => "invalid_type"
  | .missingRequiredFields => "missing_required_fields"

/-- `ValidationStatus` from `constants.py`. -/
inductive ValidationStatus where
  | passed
  | failed
  | skipped
deriving DecidableEq

/-- Input to `validate_schema`: a null reference, a non-DataFrame object, or a
DataFrame. -/
inductive BatchInput where
  | null
  | nonTable
  | table (df : DF)

/-- pandas `DataFrame.empty`: true when any axis has length 0, i.e. the frame
has no rows or no columns. -/
def DF.emptyTable (df : DF) : Bool :=
  df.rows.isEmpty || df.cols.isEmpty

/-- `CryptoDataValidator.validate_schema`: None check, type check, emptiness
check, then required-field check (`set(REQUIRED_FIELDS) - set(df.columns)`),
in that order. -/
def validate_schema (b : BatchInput) : SchemaValidationStatus :=
  match b with
  | .null => .emptyData
  | .nonTable => .invalidType
  | .table df =>
    if df.emptyTable then .emptyData
    else if (REQUIRED_FIELDS.filter (fun c => decide (c ∉ df.cols))).isEmpty then
      .valid
    else .missingRequiredFields

/-- Per-rule item report (`ValidationItemReport`): the fields present in each
of the three shapes built by `_generate_flag_report`.  The `examples` field of
a failed item is `none` when no `example_columns` were supplied (key absent)
and `some` of the projected records otherwise; each record is the list of
(column, value) pairs over the example columns. -/
inductive ItemReport where
  | skippedItem (reason : String)
  | passedItem (total_rows failed_count : Nat)
  | failedItem (total_rows failed_count : Nat) (failed_percentage : ℚ)
      (examples : Option (List (List (String × Cell))))
deriving DecidableEq

/-- The `status` field of an item report. -/
def ItemReport.status : ItemReport → ValidationStatus
  | .skippedItem _ => .skipped
  | .passedItem _ _ => .passed
  | .failedItem _ _ _ _ => .failed

/-- Python's `round(q, 2)` on an exact value: round half to even at two
decimal places. -/
def pyRound2 (q : ℚ) : ℚ :=
  let x := q * 100
  let f : ℤ := ⌊x⌋
  let r : ℚ := x - (f : ℚ)
  let n : ℤ :=
    if r < 1/2 then f
    else if 1/2 < r then f + 1
    else if f % 2 = 0 then f else f + 1
  (n : ℚ) / 100

/-- Count of True flags in a column (`df[flag_column].sum()` on booleans). -/
def countTrue (l : List Cell) : Nat :=
  (l.filter (fun cl => cl = Cell.bool true)).length

/-- `CryptoDataValidator._generate_flag_report`: SKIPPED when the flag column
is absent; PASSED when no flag is set; otherwise FAILED with the rounded
percentage and, when example columns are given, up to 5 flagged rows projected
onto them.  The projection `df[df[flag]][example_columns]` raises `KeyError`
(modelled by `none`) when an example column is absent. -/
def generate_flag_report (df : DF) (flag_column : String)
    (example_columns : List String) : Option ItemReport :=
  if flag_column ∈ df.cols then
    let total_count := df.rows.length
    let failed_count := countTrue (colCells df flag_column)
    if failed_count = 0 then
      some (ItemReport.passedItem total_count 0)
    else
      let pct := pyRound2 ((failed_count : ℚ) / (total_count : ℚ) * 100)
      if example_columns.isEmpty then
        some (ItemReport.failedItem total_count failed_count pct none)
      else if example_columns.all (fun c => decide (c ∈ df.cols)) then
        let flagged := (df.rows.filter
          (fun r => rowCell df r flag_column = Cell.bool true)).take 5
        let examples := flagged.map (fun r =>
          example_columns.map (fun c => (c, rowCell df r c)))
        some (ItemReport.failedItem total_count failed_count pct (some examples))
      else none
  else some (ItemReport.skippedItem "validation_not_run")

/-- `ValidationReport` from `report_types.py`, with the `summary` dict
flattened into the `summary*` fields. -/
structure ValidationReport where
  status : ValidationStatus
  stage : String
  total_rows : Nat
  validations : List (String × ItemReport)
  summaryTotal : Nat
  summaryExecuted : Nat
  summaryPassed : List String
  summaryFailed : List String
  summarySkipped : List String
deriving DecidableEq

/-- One iteration of the summary-update loop of
`generate_validation_report`: append the rule name to the list matching the
item's status, counting PASSED and FAILED items as executed. -/
def summarizeStep (rep : ValidationReport) (kv : String × ItemReport) :
    ValidationReport :=
  match kv.2.status with
  | ValidationStatus.passed =>
      { rep with summaryPassed := rep.summaryPassed ++ [kv.1],
                 summaryExecuted := rep.summaryExecuted + 1 }
  | ValidationStatus.failed =>
      { rep with summaryFailed := rep.summaryFailed ++ [kv.1],
                 summaryExecuted := rep.summaryExecuted + 1 }
  | ValidationStatus.skipped =>
      { rep with summarySkipped := rep.summarySkipped ++ [kv.1] }

/-- The summary-update loop of `generate_validation_report`: fold the items in
insertion order. -/
def summarize (items : List (String × ItemReport)) (rep : ValidationReport) :
    ValidationReport :=
  items.foldl summarizeStep rep

/-- `CryptoDataValidator.generate_validation_report`: build the five item
reports in source order, aggregate the summary, and set the overall status to
FAILED exactly when the failed list is non-empty.  `none` models a `KeyError`
escaping from an example projection. -/
def generate_validation_report (df : DF) : Option ValidationReport := do
  let numeric_types ← generate_flag_report df HAS_NON_NUMERIC_VALUE
    ["symbol", "name"]
  let price_range ← generate_flag_report df HAS_ABNORMAL_PRICE
    ["symbol", "name", "current_price"]
  let market_cap ← generate_flag_report df HAS_INVALID_MARKET_CAP
    ["symbol", "name", "market_cap", "current_price", "circulating_supply"]
  let missing_values ← generate_flag_report df HAS_MISSING_VALUES
    ["symbol", "name"]
  let duplicates ← generate_flag_report df HAS_DUPLICATE
    ["id", "symbol", "name"]
  let items := [("numeric_types", numeric_types), ("price_range", price_range),
    ("market_cap", market_cap), ("missing_values", missing_values),
    ("duplicates", duplicates)]
  let base : ValidationReport :=
    { status := ValidationStatus.passed, stage := "data_validation",
      total_rows := df.rows.length, validations := items,
      summaryTotal := items.length, summaryExecuted := 0,
      summaryPassed := [], summaryFailed := [], summarySkipped := [] }
  let rep := summarize items base
  pure { rep with
    status := if rep.summaryFailed.isEmpty then ValidationStatus.passed
              else ValidationStatus.failed }

/-- `SchemaErrorReport` from `report_types.py`, with the `summary` dict
flattened. -/
structure SchemaErrorReport where
  status : ValidationStatus
  stage : String
  error : String
  error_message : String
  validations : List (String × ItemReport)
  summaryPassed : List String
  summaryFailed : List String
deriving DecidableEq

/-- The `error_messages` dict of `generate_schema_error_report`, as a partial
map (`.get` with a default is applied at the call site). -/
def error_messages : SchemaValidationStatus → Option String
  | .emptyData => some "DataFrame is empty or None"
  | .invalidType => some "Input is not a valid DataFrame"
  | .missingRequiredFields => some "Missing required fields"
  | .valid => none

/-- `CryptoDataValidator.generate_schema_error_report`. -/
def generate_schema_error_report (status : SchemaValidationStatus) :
    SchemaErrorReport :=
  { status := ValidationStatus.failed,
    stage := "schema_validation",
    error := status.value,
    error_message := (error_messages status).getD "Unknown schema error",
    validations := [],
    summaryPassed := [],
    summaryFailed := ["schema_validation"] }

/-- The per-cell condition of `flag_abnormal_prices`: the coerced price exists
and lies strictly outside the inclusive range [PRICE_MIN, PRICE_MAX]. -/
def priceOutOfRange (cl : Cell) : Bool :=
  match toNumeric cl with
  | some p => decide (p < PRICE_MIN) || decide (PRICE_MAX < p)
  | none => false

/-- The per-row condition of `flag_invalid_market_cap`: when all three inputs
coerce, the market cap is non-positive or its relative error against
price × supply is at least 5 percent; otherwise the row is not flagged. -/
def marketCapRowInvalid (mc pr su : Cell) : Bool :=
  match toNumeric mc, toNumeric pr, toNumeric su with
  | some m, some p, some s =>
      decide (m ≤ 0) || (decide (0 < m) && decide ((5 : ℚ)/100 ≤ |m - p * s| / m))
  | _, _, _ => false

/-- The per-row condition of `flag_missing_values`: some required field is
null. -/
def missingRowFlag (df : DF) (r : List Cell) : Bool :=
  REQUIRED_FIELDS.any (fun c => isNull (rowCell df r c))

/-- Identifier of one of the five flag rules. -/
inductive RuleId where
  | numericTypes
  | priceRange
  | marketCap
  | missingValues
  | duplicates
deriving DecidableEq

/-- The flag column each rule writes. -/
def flagName : RuleId → String
  | .numericTypes => HAS_NON_NUMERIC_VALUE
  | .priceRange => HAS_ABNORMAL_PRICE
  | .marketCap => HAS_INVALID_MARKET_CAP
  | .missingValues => HAS_MISSING_VALUES
  | .duplicates => HAS_DUPLICATE

/-- Run one flag rule; `none` is a raise (only `flag_missing_values` can). -/
def runRule : RuleId → DF → Option DF
  | .numericTypes, df => some (flag_invalid_numeric_types df)
  | .priceRange, df => some (flag_abnormal_prices df)
  | .marketCap, df => some (flag_invalid_market_cap df)
  | .missingValues, df => flag_missing_values df
  | .duplicates, df => some (flag_duplicates df)

/-- Run a list of flag rules left to right, propagating a raise. -/
def runRules : List RuleId → DF → Option DF
  | [], df => some df
  | r :: rs, df => (runRule r df).bind (runRules rs)

/-- The five flag rules in the order the pipeline applies them. -/
def allRules : List RuleId :=
  [RuleId.numericTypes, RuleId.priceRange, RuleId.marketCap,
   RuleId.missingValues, RuleId.duplicates]

/-- The content a rule's flag column receives, as a function of the batch the
rule is given (one boolean cell per row).  For a row in which a read column is
absent, `rowCell` is missing, so the per-cell predicates default to false; this
matches the rules' column-absent no-ops.  `duplicates` keeps its explicit
column guard because an absent id column yields all-missing ids, which would
otherwise duplicate each other. -/
def ruleFlagCol (df : DF) : RuleId → List Cell
  | .numericTypes => df.rows.map (fun r =>
      Cell.bool (NUMERIC_FIELDS.any (fun f => nonNumericCell (rowCell df r f))))
  | .priceRange => df.rows.map (fun r =>
      Cell.bool (priceOutOfRange (rowCell df r "current_price")))
  | .marketCap => df.rows.map (fun r =>
      Cell.bool (marketCapRowInvalid (rowCell df r "market_cap")
        (rowCell df r "current_price") (rowCell df r "circulating_supply")))
  | .missingValues => df.rows.map (fun r => Cell.bool (missingRowFlag df r))
  | .duplicates =>
      if "id" ∈ df.cols then (dupMask [] (colCells df "id")).map Cell.bool
      else df.rows.map (fun _ => Cell.bool false)

/-- The batch obtained by appending to `df` the flag columns of the rules in
`l`, in that order, each holding its per-row flags computed from `df`. -/
def extendDF (df : DF) (l : List RuleId) : DF :=
  l.foldl (fun d rid => appendCol d (ruleFlagCol df rid) (flagName rid)) df

/-- Equality of batches up to column order: same number of rows, same column
set, and identical cell lists for every column name. -/
def DF.ContentEq (d1 d2 : DF) : Prop :=
  d1.rows.length = d2.rows.length ∧
  (∀ c : String, c ∈ d1.cols ↔ c ∈ d2.cols) ∧
  (∀ c : String, colCells d1 c = colCells d2 c)

/-- A one-row batch carrying the seven required columns, used to instantiate
universally quantified theorems. -/
def sampleDF : DF :=
  ⟨["id", "symbol", "name", "current_price", "market_cap", "total_volume",
    "circulating_supply"],
   [[Cell.text "bitcoin", Cell.text "btc", Cell.text "Bitcoin", Cell.num 45000,
     Cell.num 900000000000, Cell.num 30000000000, Cell.num 20000000]]⟩

/-- A batch exercising both inclusive price bounds, both out-of-range sides,
a textual price and a missing price. -/
def priceDF : DF :=
  ⟨["current_price"],
   [[Cell.num (1/1000000)], [Cell.num 1000000], [Cell.num (99/100000000)],
    [Cell.num 1000001], [Cell.text "invalid"], [Cell.missing]]⟩

/-- A batch exercising the market-cap rule: 4 percent error, 10 percent
error, zero, negative, exactly 5 percent error, and an unparseable cap. -/
def marketCapDF : DF :=
  ⟨["market_cap", "current_price", "circulating_supply"],
   [[Cell.num 104000000, Cell.num 100, Cell.num 1000000],
    [Cell.num 110000000, Cell.num 100, Cell.num 1000000],
    [Cell.num 0, Cell.num 100, Cell.num 1000000],
    [Cell.num (-5), Cell.num 100, Cell.num 1000000],
    [Cell.num (2000000000/21), Cell.num 100, Cell.num 1000000],
    [Cell.text "x", Cell.num 100, Cell.num 1000000]]⟩

/-- A batch whose id column is the sequence [A, A, B]. -/
def dupDF : DF :=
  ⟨["id"], [[Cell.text "A"], [Cell.text "A"], [Cell.text "B"]]⟩

/-- A three-row batch in which exactly one row carries a duplicate flag. -/
def reportDF : DF :=
  ⟨["id", "symbol", "name", HAS_DUPLICATE],
   [[Cell.text "a", Cell.text "s1", Cell.text "n1", Cell.bool false],
    [Cell.text "a", Cell.text "s2", Cell.text "n2", Cell.bool true],
    [Cell.text "b", Cell.text "s3", Cell.text "n3", Cell.bool false]]⟩

/-- The report `generate_validation_report` produces on `reportDF`: one
failed rule (duplicates, 1 of 3 rows, 33.33 percent), four skipped rules. -/
def reportDFreport : ValidationReport :=
  { status := ValidationStatus.failed,
    stage := "data_validation",
    total_rows := 3,
    validations :=
      [("numeric_types", ItemReport.skippedItem "validation_not_run"),
       ("price_range", ItemReport.skippedItem "validation_not_run"),
       ("market_cap", ItemReport.skippedItem "validation_not_run"),
       ("missing_values", ItemReport.skippedItem "validation_not_run"),
       ("duplicates", ItemReport.failedItem 3 1 ((3333 : ℚ)/100)
         (some [[("id", Cell.text "a"), ("symbol", Cell.text "s2"),
           ("name", Cell.text "n2")]]))],
    summaryTotal := 5,
    summaryExecuted := 1,
    summaryPassed := [],
    summaryFailed := ["duplicates"],
    summarySkipped := ["numeric_types", "price_range", "market_cap",
      "missing_values"] }

/-- The five (flag column, example columns) pairs `generate_validation_report`
passes to `_generate_flag_report`. -/
def ruleReportSpecs : List (String × List String) :=
  [(HAS_NON_NUMERIC_VALUE, ["symbol", "name"]),
   (HAS_ABNORMAL_PRICE, ["symbol", "name", "current_price"]),
   (HAS_INVALID_MARKET_CAP,
     ["symbol", "name", "market_cap", "current_price", "circulating_supply"]),
   (HAS_MISSING_VALUES, ["symbol", "name"]),
   (HAS_DUPLICATE, ["id", "symbol", "name"])]

/-! Basic lemmas about column lookup and column append. -/

theorem colIdx_eq_none_iff {df : DF} {c : String} :
    colIdx df c = none ↔ c ∉ df.cols := by
  unfold colIdx
  rw [List.findIdx?_eq_none_iff]
  constructor
  · intro h hc
    simpa using h c hc
  · intro h x hx
    simp only [decide_eq_false_iff_not]
    intro he
    exact h (he ▸ hx)

theorem colIdx_spec {df : DF} {c : String} {j : Nat} (h : colIdx df c = some j) :
    ∃ hj : j < df.cols.length, df.cols[j] = c := by
  unfold colIdx at h
  rw [List.findIdx?_eq_some_iff_getElem] at h
  obtain ⟨hj, hp, _⟩ := h
  exact ⟨hj, by simpa using hp⟩

theorem colIdx_isSome_of_mem {df : DF} {c : String} (h : c ∈ df.cols) :
    ∃ j, colIdx df c = some j := by
  cases hidx : colIdx df c with
  | some j => exact ⟨j, rfl⟩
  | none => exact absurd h (colIdx_eq_none_iff.mp hidx)

theorem zipWith_eq_map_left {α β γ : Type _} {f : α → β → γ} {g : α → γ}
    {l1 : List α} {l2 : List β} (hlen : l2.length = l1.length)
    (h : ∀ a ∈ l1, ∀ b ∈ l2, f a b = g a) :
    List.zipWith f l1 l2 = l1.map g := by
  induction l1 generalizing l2 with
  | nil => simp
  | cons a as ih =>
    cases l2 with
    | nil => simp at hlen
    | cons b bs =>
      simp only [List.zipWith_cons_cons, List.map_cons]
      refine congrArg₂ _ (h a (by simp) b (by simp)) (ih (by simpa using hlen) ?_)
      intro a' ha' b' hb'
      exact h a' (List.mem_cons_of_mem _ ha') b' (List.mem_cons_of_mem _ hb')

theorem zipWith_eq_map_right {α β γ : Type _} {f : α → β → γ} {g : β → γ}
    {l1 : List α} {l2 : List β} (hlen : l2.length = l1.length)
    (h : ∀ a ∈ l1, ∀ b ∈ l2, f a b = g b) :
    List.zipWith f l1 l2 = l2.map g := by
  induction l1 generalizing l2 with
  | nil =>
    cases l2 with
    | nil => simp
    | cons b bs => simp at hlen
  | cons a as ih =>
    cases l2 with
    | nil => simp
    | cons b bs =>
      simp only [List.zipWith_cons_cons, List.map_cons]
      refine congrArg₂ _ (h a (by simp) b (by simp)) (ih (by simpa using hlen) ?_)
      intro a' ha' b' hb'
      exact h a' (List.mem_cons_of_mem _ ha') b' (List.mem_cons_of_mem _ hb')

theorem getD_append_lt {α : Type _} {l1 l2 : List α} {j : Nat}
    (h : j < l1.length) (d : α) :
    (l1 ++ l2).getD j d = l1.getD j d := by
  simp [List.getD_eq_getElem?_getD, List.getElem?_append_left h]

theorem getD_append_len {α : Type _} {l : List α} {j : Nat} (h : j = l.length)
    (a d : α) : (l ++ [a]).getD j d = a := by
  subst h
  simp [List.getD_eq_getElem?_getD, List.getElem?_concat_length]

theorem appendCol_cols (df : DF) (vals : List Cell) (n : String) :
    (appendCol df vals n).cols = df.cols ++ [n] := rfl

theorem mem_appendCol_cols {df : DF} {vals : List Cell} {n c : String} :
    c ∈ (appendCol df vals n).cols ↔ c ∈ df.cols ∨ c = n := by
  simp [appendCol_cols]

theorem colIdx_appendCol_other {df : DF} {c n : String} (hc : c ≠ n)
    (vals : List Cell) :
    colIdx (appendCol df vals n) c = colIdx df c := by
  show (df.cols ++ [n]).findIdx? (fun x => x = c) = colIdx df c
  rw [List.findIdx?_append]
  unfold colIdx
  cases h : df.cols.findIdx? (fun x => x = c) with
  | some j => simp [h]
  | none =>
    have hn : [n].findIdx? (fun x => x = c) = none := by
      simp [List.findIdx?_cons, hc.symm]
    simp [h, hn]

theorem colIdx_appendCol_self {df : DF} {n : String} (hn : n ∉ df.cols)
    (vals : List Cell) :
    colIdx (appendCol df vals n) n = some df.cols.length := by
  show (df.cols ++ [n]).findIdx? (fun x => x = n) = _
  rw [List.findIdx?_append]
  have h1 : df.cols.findIdx? (fun x => x = n) = none := colIdx_eq_none_iff.mpr hn
  have h2 : [n].findIdx? (fun x => x = n) = some 0 := by
    simp [List.findIdx?_cons]
  simp [h1, h2]

theorem appendCol_rows_length {df : DF} {vals : List Cell}
    (hv : vals.length = df.rows.length) (n : String) :
    (appendCol df vals n).rows.length = df.rows.length := by
  simp [appendCol, List.length_zipWith, hv]

theorem mem_zipWith_append_length {L : Nat} :
    ∀ (rs : List (List Cell)) (vs : List Cell), (∀ r ∈ rs, r.length = L) →
      ∀ x ∈ List.zipWith (fun r v => r ++ [v]) rs vs, x.length = L + 1 := by
  intro rs
  induction rs with
  | nil => intro vs _ x hx; simp at hx
  | cons r rs ih =>
    intro vs h x hx
    cases vs with
    | nil => simp at hx
    | cons v vs =>
      simp only [List.zipWith_cons_cons, List.mem_cons] at hx
      rcases hx with rfl | hx
      · simp [h r (by simp)]
      · exact ih vs (fun r' hr' => h r' (List.mem_cons_of_mem _ hr')) x hx

theorem appendCol_aligned {df : DF} (hA : df.Aligned) {vals : List Cell}
    (n : String) : (appendCol df vals n).Aligned := by
  intro r hr
  have := mem_zipWith_append_length df.rows vals hA r hr
  simpa [appendCol] using this

theorem colCells_length (df : DF) (c : String) :
    (colCells df c).length = df.rows.length := by
  simp [colCells]

theorem colCells_appendCol_self {df : DF} (hA : df.Aligned) {n : String}
    (hn : n ∉ df.cols) {vals : List Cell} (hv : vals.length = df.rows.length) :
    colCells (appendCol df vals n) n = vals := by
  unfold colCells
  show (List.zipWith (fun r v => r ++ [v]) df.rows vals).map
      (fun r => rowCell (appendCol df vals n) r n) = vals
  rw [List.map_zipWith]
  have hstep : List.zipWith (fun (r : List Cell) (v : Cell) =>
      rowCell (appendCol df vals n) (r ++ [v]) n) df.rows vals
      = vals.map (fun v => v) := by
    refine zipWith_eq_map_right (by omega) ?_
    intro r hr v _
    unfold rowCell
    rw [colIdx_appendCol_self hn vals]
    exact getD_append_len (by rw [hA r hr]) v Cell.missing
  rw [hstep, List.map_id']

theorem colCells_appendCol_other {df : DF} (hA : df.Aligned) {c n : String}
    (hc : c ≠ n) {vals : List Cell} (hv : vals.length = df.rows.length) :
    colCells (appendCol df vals n) c = colCells df c := by
  unfold colCells
  show (List.zipWith (fun r v => r ++ [v]) df.rows vals).map
      (fun r => rowCell (appendCol df vals n) r c) = _
  rw [List.map_zipWith]
  refine zipWith_eq_map_left (by omega) ?_
  intro r hr v _
  unfold rowCell
  rw [colIdx_appendCol_other hc vals]
  cases hidx : colIdx df c with
  | none => rfl
  | some j =>
    obtain ⟨hj, _⟩ := colIdx_spec hidx
    exact getD_append_lt (by rw [hA r hr]; exact hj) Cell.missing

/-! Assignment to a fresh column name reduces to `appendCol`. -/

theorem setCol_of_not_mem {df : DF} {n : String} (hn : n ∉ df.cols)
    (vals : List Cell) : setCol df n vals = appendCol df vals n := by
  unfold setCol appendCol
  rw [show colIdx df n = none from colIdx_eq_none_iff.mpr hn]

theorem initFlag_of_not_mem {df : DF} {n : String} (hn : n ∉ df.cols) :
    initFlag df n = appendCol df (df.rows.map (fun _ => Cell.bool false)) n :=
  setCol_of_not_mem hn _

theorem set_append_len {r : List Cell} {L : Nat} (h : r.length = L)
    (v m : Cell) : (r ++ [v]).set L m = r ++ [m] := by
  subst h
  induction r with
  | nil => rfl
  | cons a as ih => simp [List.set, ih]

theorem zip_set_app {L : Nat} :
    ∀ (rs : List (List Cell)) (vs ms : List Cell), (∀ r ∈ rs, r.length = L) →
      vs.length = rs.length →
      List.zipWith (fun r m => r.set L m)
        (List.zipWith (fun r v => r ++ [v]) rs vs) ms
        = List.zipWith (fun r m => r ++ [m]) rs ms := by
  intro rs
  induction rs with
  | nil => intro vs ms _ _; simp
  | cons r rs ih =>
    intro vs ms h hv
    cases vs with
    | nil => simp at hv
    | cons v vs =>
      cases ms with
      | nil => simp
      | cons m ms =>
        simp only [List.zipWith_cons_cons]
        rw [set_append_len (h r (by simp)) v m,
          ih vs ms (fun r' hr' => h r' (List.mem_cons_of_mem _ hr'))
            (by simpa using hv)]

theorem locSetTrue_appendCol {df : DF} (hA : df.Aligned) {n : String}
    (hn : n ∉ df.cols) {vals : List Cell} (hv : vals.length = df.rows.length)
    (mask : List Bool) :
    locSetTrue (appendCol df vals n) n mask =
      appendCol df
        (List.zipWith (fun old m => if m then Cell.bool true else old) vals mask)
        n := by
  unfold locSetTrue
  rw [colCells_appendCol_self hA hn hv]
  unfold setCol
  rw [colIdx_appendCol_self hn vals]
  show DF.mk (appendCol df vals n).cols _ = _
  unfold appendCol
  refine congrArg₂ DF.mk rfl ?_
  have hzip : List.zipWith (fun r v => r.set df.cols.length v)
      (List.zipWith (fun r v => r ++ [v]) df.rows vals)
      (List.zipWith (fun old m => if m then Cell.bool true else old) vals mask)
      = List.zipWith (fun r m => r ++ [m]) df.rows
        (List.zipWith (fun old m => if m then Cell.bool true else old) vals mask) :=
    zip_set_app df.rows vals _ hA hv
  exact hzip

theorem initFlag_locSet {df : DF} (hA : df.Aligned) {n : String}
    (hn : n ∉ df.cols) {mask : List Bool} (hm : mask.length = df.rows.length) :
    locSetTrue (initFlag df n) n mask =
      appendCol df (mask.map (fun m => Cell.bool m)) n := by
  rw [initFlag_of_not_mem hn,
    locSetTrue_appendCol hA hn (by simp) mask]
  refine congrArg₂ (fun v nm => appendCol df v nm) ?_ rfl
  refine zipWith_eq_map_right (by simpa using hm) ?_
  intro a ha b _
  obtain ⟨r, _, rfl⟩ := List.mem_map.mp ha
  cases b <;> rfl

/-! Each rule, run on a batch not yet carrying its flag column, appends
exactly that column, holding its per-row flags. -/

theorem rowCell_of_not_mem {df : DF} {c : String} (h : c ∉ df.cols)
    (r : List Cell) : rowCell df r c = Cell.missing := by
  unfold rowCell
  rw [colIdx_eq_none_iff.mpr h]

theorem flag_abnormal_prices_run (d : DF) (hA : d.Aligned)
    (hn : HAS_ABNORMAL_PRICE ∉ d.cols) :
    flag_abnormal_prices d =
      appendCol d (ruleFlagCol d RuleId.priceRange) HAS_ABNORMAL_PRICE := by
  unfold flag_abnormal_prices
  rw [initFlag_of_not_mem hn]
  have hne : "current_price" ≠ HAS_ABNORMAL_PRICE := by decide
  by_cases hcp : "current_price" ∈ d.cols
  · rw [if_pos (by simp [mem_appendCol_cols, hcp])]
    rw [colCells_appendCol_other hA hne (by simp)]
    rw [← initFlag_of_not_mem hn,
      initFlag_locSet hA hn (by simp [colCells_length])]
    refine congrArg₂ (fun v nm => appendCol d v nm) ?_ rfl
    simp only [ruleFlagCol, colCells, List.map_map]
    rfl
  · rw [if_neg (by simp [mem_appendCol_cols]; exact ⟨hcp, hne⟩)]
    refine congrArg₂ (fun v nm => appendCol d v nm) ?_ rfl
    refine (List.map_congr_left ?_).symm
    intro r _
    rw [rowCell_of_not_mem hcp, show priceOutOfRange Cell.missing = false from rfl]

theorem flag_duplicates_run (d : DF) (hA : d.Aligned)
    (hn : HAS_DUPLICATE ∉ d.cols) :
    flag_duplicates d =
      appendCol d (ruleFlagCol d RuleId.duplicates) HAS_DUPLICATE := by
  unfold flag_duplicates
  rw [initFlag_of_not_mem hn]
  have hne : "id" ≠ HAS_DUPLICATE := by decide
  have hdm : ∀ l : List Cell, (dupMask [] l).length = l.length := by
    intro l
    suffices h : ∀ seen l : List Cell, (dupMask seen l).length = l.length by
      exact h [] l
    intro seen l
    induction l generalizing seen with
    | nil => rfl
    | cons x xs ih => simp [dupMask, ih]
  by_cases hid : "id" ∈ d.cols
  · rw [if_pos (by simp [mem_appendCol_cols, hid])]
    rw [colCells_appendCol_other hA hne (by simp)]
    rw [← initFlag_of_not_mem hn,
      initFlag_locSet hA hn (by simp [hdm, colCells_length])]
    refine congrArg₂ (fun v nm => appendCol d v nm) ?_ rfl
    simp [ruleFlagCol, hid]
  · rw [if_neg (by simp [mem_appendCol_cols]; exact ⟨hid, hne⟩)]
    refine congrArg₂ (fun v nm => appendCol d v nm) ?_ rfl
    simp [ruleFlagCol, hid]

theorem marketCapRowInvalid_of_none {mc pr su : Cell}
    (h : ((toNumeric mc).isSome && ((toNumeric pr).isSome && (toNumeric su).isSome))
      = false) : marketCapRowInvalid mc pr su = false := by
  unfold marketCapRowInvalid
  cases hm : toNumeric mc <;> cases hp : toNumeric pr <;> cases hs : toNumeric su
    <;> simp_all

theorem toNumeric_missing : toNumeric Cell.missing = none := rfl

theorem marketCapRowInvalid_mc_missing (pr su : Cell) :
    marketCapRowInvalid Cell.missing pr su = false :=
  marketCapRowInvalid_of_none (by simp [toNumeric_missing])

theorem marketCapRowInvalid_pr_missing (mc su : Cell) :
    marketCapRowInvalid mc Cell.missing su = false :=
  marketCapRowInvalid_of_none (by simp [toNumeric_missing])

theorem marketCapRowInvalid_su_missing (mc pr : Cell) :
    marketCapRowInvalid mc pr Cell.missing = false :=
  marketCapRowInvalid_of_none (by simp [toNumeric_missing])

theorem colCells_map (d : DF) (f : Cell → α) (c : String) :
    (colCells d c).map f = d.rows.map (fun r => f (rowCell d r c)) := by
  unfold colCells
  rw [List.map_map]
  rfl

theorem flag_invalid_market_cap_run (d : DF) (hA : d.Aligned)
    (hn : HAS_INVALID_MARKET_CAP ∉ d.cols) :
    flag_invalid_market_cap d =
      appendCol d (ruleFlagCol d RuleId.marketCap) HAS_INVALID_MARKET_CAP := by
  have hne1 : "market_cap" ≠ HAS_INVALID_MARKET_CAP := by decide
  have hne2 : "current_price" ≠ HAS_INVALID_MARKET_CAP := by decide
  have hne3 : "circulating_supply" ≠ HAS_INVALID_MARKET_CAP := by decide
  unfold flag_invalid_market_cap
  simp only []
  rw [initFlag_of_not_mem hn]
  by_cases h3 : "market_cap" ∈ d.cols ∧ "current_price" ∈ d.cols ∧
      "circulating_supply" ∈ d.cols
  · obtain ⟨hmc, hcp, hcs⟩ := h3
    rw [if_pos (by simp [mem_appendCol_cols, hmc, hcp, hcs])]
    rw [colCells_appendCol_other hA hne1 (by simp),
      colCells_appendCol_other hA hne2 (by simp),
      colCells_appendCol_other hA hne3 (by simp)]
    rw [colCells_map d toNumeric "market_cap",
      colCells_map d toNumeric "current_price",
      colCells_map d toNumeric "circulating_supply"]
    rw [List.zip_map']
    rw [List.zipWith_map mcCanValidate _ _ d.rows d.rows, List.zipWith_same,
      List.zipWith_map mcPairInvalid _ _ d.rows d.rows, List.zipWith_same]
    by_cases hany : ((d.rows.map (fun r => mcCanValidate
        (toNumeric (rowCell d r "market_cap"))
        (toNumeric (rowCell d r "current_price"),
         toNumeric (rowCell d r "circulating_supply")))).any
        (fun b => b)) = true
    · rw [if_pos hany]
      rw [← initFlag_of_not_mem hn, initFlag_locSet hA hn (by simp)]
      refine congrArg₂ (fun v nm => appendCol d v nm) ?_ rfl
      simp only [List.map_map, ruleFlagCol]
      rfl
    · rw [if_neg hany]
      refine congrArg₂ (fun v nm => appendCol d v nm) ?_ rfl
      rw [eq_comm]
      simp only [ruleFlagCol]
      refine List.map_congr_left ?_
      intro r hr
      have hrow : mcCanValidate (toNumeric (rowCell d r "market_cap"))
          (toNumeric (rowCell d r "current_price"),
           toNumeric (rowCell d r "circulating_supply")) = false := by
        cases hb : mcCanValidate (toNumeric (rowCell d r "market_cap"))
            (toNumeric (rowCell d r "current_price"),
             toNumeric (rowCell d r "circulating_supply")) with
        | false => rfl
        | true =>
          refine absurd (List.any_eq_true.mpr ⟨_, List.mem_map_of_mem _ hr, ?_⟩) hany
          exact hb
      rw [marketCapRowInvalid_of_none (by simpa [mcCanValidate] using hrow)]
  · rw [if_neg (by
      simp only [List.all_cons, List.all_nil, Bool.and_true, Bool.and_eq_true,
        decide_eq_true_eq, mem_appendCol_cols]
      intro hc
      exact h3 ⟨hc.1.resolve_right hne1, hc.2.1.resolve_right hne2,
        hc.2.2.resolve_right hne3⟩)]
    refine congrArg₂ (fun v nm => appendCol d v nm) ?_ rfl
    rw [eq_comm]
    simp only [ruleFlagCol]
    refine List.map_congr_left ?_
    intro r _
    rcases not_and_or.mp h3 with hmiss | hrest
    · rw [rowCell_of_not_mem hmiss r, marketCapRowInvalid_mc_missing]
    rcases not_and_or.mp hrest with hmiss | hmiss
    · rw [rowCell_of_not_mem hmiss r, marketCapRowInvalid_pr_missing]
    · rw [rowCell_of_not_mem hmiss r, marketCapRowInvalid_su_missing]

theorem any_congr {α : Type _} {l : List α} {f g : α → Bool}
    (h : ∀ a ∈ l, f a = g a) : l.any f = l.any g := by
  induction l with
  | nil => rfl
  | cons a as ih =>
    simp only [List.any_cons, h a (by simp),
      ih (fun a' ha' => h a' (List.mem_cons_of_mem _ ha'))]

theorem required_ne_missing_flag :
    ∀ c ∈ REQUIRED_FIELDS, c ≠ HAS_MISSING_VALUES := by decide

theorem flag_missing_values_run_pos (d : DF) (hA : d.Aligned)
    (hn : HAS_MISSING_VALUES ∉ d.cols)
    (hreq : ∀ c ∈ REQUIRED_FIELDS, c ∈ d.cols) :
    flag_missing_values d =
      some (appendCol d (ruleFlagCol d RuleId.missingValues) HAS_MISSING_VALUES) := by
  unfold flag_missing_values
  simp only []
  rw [initFlag_of_not_mem hn]
  rw [if_pos (List.all_eq_true.mpr (fun c hc => by
    simp [mem_appendCol_cols, hreq c hc]))]
  refine congrArg some ?_
  have hrows : (appendCol d (d.rows.map (fun _ => Cell.bool false))
      HAS_MISSING_VALUES).rows.map (fun r =>
        REQUIRED_FIELDS.any (fun c => isNull (rowCell
          (appendCol d (d.rows.map (fun _ => Cell.bool false))
            HAS_MISSING_VALUES) r c)))
      = d.rows.map (fun r => missingRowFlag d r) := by
    show (List.zipWith (fun r v => r ++ [v]) d.rows
        (d.rows.map (fun _ => Cell.bool false))).map _ = _
    rw [List.map_zipWith]
    refine zipWith_eq_map_left (by simp) ?_
    intro r hr v _
    refine any_congr ?_
    intro c hc
    refine congrArg isNull ?_
    unfold rowCell
    rw [colIdx_appendCol_other (required_ne_missing_flag c hc) _]
    cases hidx : colIdx d c with
    | none => rfl
    | some j =>
      obtain ⟨hj, _⟩ := colIdx_spec hidx
      exact getD_append_lt (by rw [hA r hr]; exact hj) Cell.missing
  rw [hrows, ← initFlag_of_not_mem hn, initFlag_locSet hA hn (by simp)]
  refine congrArg₂ (fun v nm => appendCol d v nm) ?_ rfl
  rw [List.map_map]
  rfl

theorem flag_missing_values_run_neg (d : DF)
    (hn : HAS_MISSING_VALUES ∉ d.cols)
    (hreq : ¬ ∀ c ∈ REQUIRED_FIELDS, c ∈ d.cols) :
    flag_missing_values d = none := by
  unfold flag_missing_values
  simp only []
  rw [initFlag_of_not_mem hn]
  rw [if_neg (fun hall => hreq (fun c hc => by
    have := List.all_eq_true.mp hall c hc
    simp only [mem_appendCol_cols, decide_eq_true_eq] at this
    exact this.resolve_right (required_ne_missing_flag c hc)))]

theorem numeric_fields_ne_flag :
    ∀ f ∈ NUMERIC_FIELDS, f ≠ HAS_NON_NUMERIC_VALUE := by decide

theorem numeric_fold (d : DF) (hA : d.Aligned)
    (hn : HAS_NON_NUMERIC_VALUE ∉ d.cols) :
    ∀ (fields : List String), (∀ f ∈ fields, f ≠ HAS_NON_NUMERIC_VALUE) →
    ∀ (g : List Cell → Bool),
    fields.foldl (fun acc field =>
      if field ∈ acc.cols then
        locSetTrue acc HAS_NON_NUMERIC_VALUE
          ((colCells acc field).map nonNumericCell)
      else acc)
      (appendCol d (d.rows.map (fun r => Cell.bool (g r))) HAS_NON_NUMERIC_VALUE)
    = appendCol d (d.rows.map (fun r => Cell.bool
        (g r || fields.any (fun f => nonNumericCell (rowCell d r f)))))
      HAS_NON_NUMERIC_VALUE := by
  intro fields
  induction fields with
  | nil =>
    intro _ g
    simp only [List.foldl_nil, List.any_nil, Bool.or_false]
  | cons f fs ih =>
    intro hne g
    simp only [List.foldl_cons]
    by_cases hf : f ∈ d.cols
    · rw [if_pos (by simp [mem_appendCol_cols, hf])]
      rw [colCells_appendCol_other hA (hne f (by simp)) (by simp)]
      rw [locSetTrue_appendCol hA hn (by simp)]
      have hmerge : List.zipWith (fun old m => if m then Cell.bool true else old)
          (d.rows.map (fun r => Cell.bool (g r)))
          ((colCells d f).map nonNumericCell)
          = d.rows.map (fun r =>
              Cell.bool (g r || nonNumericCell (rowCell d r f))) := by
        unfold colCells
        rw [List.map_map]
        rw [List.zipWith_map (fun (old : Cell) (m : Bool) =>
          if m then Cell.bool true else old) _ _ d.rows d.rows,
          List.zipWith_same]
        refine List.map_congr_left ?_
        intro r _
        show (if nonNumericCell (rowCell d r f) then Cell.bool true
          else Cell.bool (g r)) = Cell.bool (g r || nonNumericCell (rowCell d r f))
        cases nonNumericCell (rowCell d r f) <;> simp
      rw [hmerge, ih (fun f' hf' => hne f' (List.mem_cons_of_mem _ hf'))]
      refine congrArg₂ (fun v nm => appendCol d v nm) ?_ rfl
      refine List.map_congr_left ?_
      intro r _
      rw [List.any_cons, ← Bool.or_assoc]
    · rw [if_neg (by
        simp only [mem_appendCol_cols]
        rintro (h | h)
        · exact hf h
        · exact hne f (by simp) h)]
      rw [ih (fun f' hf' => hne f' (List.mem_cons_of_mem _ hf'))]
      refine congrArg₂ (fun v nm => appendCol d v nm) ?_ rfl
      refine List.map_congr_left ?_
      intro r _
      rw [List.any_cons, rowCell_of_not_mem hf r,
        show nonNumericCell Cell.missing = false from rfl]
      simp

theorem flag_invalid_numeric_types_run (d : DF) (hA : d.Aligned)
    (hn : HAS_NON_NUMERIC_VALUE ∉ d.cols) :
    flag_invalid_numeric_types d =
      appendCol d (ruleFlagCol d RuleId.numericTypes) HAS_NON_NUMERIC_VALUE := by
  unfold flag_invalid_numeric_types
  simp only []
  rw [initFlag_of_not_mem hn]
  rw [numeric_fold d hA hn NUMERIC_FIELDS numeric_fields_ne_flag
    (fun _ => false)]
  refine congrArg₂ (fun v nm => appendCol d v nm) ?_ rfl
  refine List.map_congr_left ?_
  intro r _
  rw [Bool.false_or]

theorem getCol?_appendCol_self {d : DF} (hA : d.Aligned) {n : String}
    (hn : n ∉ d.cols) {vals : List Cell} (hv : vals.length = d.rows.length) :
    getCol? (appendCol d vals n) n = some vals := by
  unfold getCol?
  rw [if_pos (mem_appendCol_cols.mpr (Or.inr rfl))]
  exact congrArg some (colCells_appendCol_self hA hn hv)

theorem dupMask_length : ∀ (seen l : List Cell), (dupMask seen l).length = l.length := by
  intro seen l
  induction l generalizing seen with
  | nil => rfl
  | cons x xs ih => simp [dupMask, ih]

theorem ruleFlagCol_length (df : DF) (rid : RuleId) :
    (ruleFlagCol df rid).length = df.rows.length := by
  cases rid <;> simp only [ruleFlagCol, List.length_map]
  split
  · rw [List.length_map, dupMask_length, colCells_length]
  · rw [List.length_map]

theorem dupMask_eq : ∀ (seen l : List Cell),
    dupMask seen l = (List.range l.length).map
      (fun i => decide (l.getD i Cell.missing ∈ seen ++ l.take i)) := by
  intro seen l
  induction l generalizing seen with
  | nil => rfl
  | cons x xs ih =>
    show decide (x ∈ seen) :: dupMask (x :: seen) xs = _
    rw [List.length_cons, List.range_succ_eq_map, List.map_cons, List.map_map]
    refine congrArg₂ List.cons ?_ ?_
    · simp
    · rw [ih (x :: seen)]
      refine List.map_congr_left ?_
      intro i _
      show decide (xs.getD i Cell.missing ∈ (x :: seen) ++ xs.take i) =
        decide ((x :: xs).getD (i + 1) Cell.missing ∈ seen ++ (x :: xs).take (i + 1))
      rw [List.getD_cons_succ, List.take_succ_cons]
      refine decide_eq_decide.mpr ?_
      constructor
      · intro h
        rcases List.mem_append.mp h with h | h
        · rcases List.mem_cons.mp h with h | h
          · exact List.mem_append.mpr (Or.inr (h ▸ List.mem_cons_self _ _))
          · exact List.mem_append.mpr (Or.inl h)
        · exact List.mem_append.mpr (Or.inr (List.mem_cons_of_mem _ h))
      · intro h
        rcases List.mem_append.mp h with h | h
        · exact List.mem_append.mpr (Or.inl (List.mem_cons_of_mem _ h))
        · rcases List.mem_cons.mp h with h | h
          · exact List.mem_append.mpr (Or.inl (h ▸ List.mem_cons_self _ _))
          · exact List.mem_append.mpr (Or.inr h)

/-- C6: on a batch with a `current_price` column, `flag_abnormal_prices` flags
exactly the records whose price coerces to a number strictly outside the
inclusive range [PRICE_MIN, PRICE_MAX] = [1e-6, 1e6]; missing or unparseable
prices are never flagged; when the column is absent every record gets a false
flag. -/
theorem C6_price_range_rule (df : DF) (hA : df.Aligned)
    (hfresh : HAS_ABNORMAL_PRICE ∉ df.cols) :
    ("current_price" ∈ df.cols →
      getCol? (flag_abnormal_prices df) HAS_ABNORMAL_PRICE =
        some (df.rows.map (fun r =>
          Cell.bool (priceOutOfRange (rowCell df r "current_price"))))) ∧
    ("current_price" ∉ df.cols →
      getCol? (flag_abnormal_prices df) HAS_ABNORMAL_PRICE =
        some (df.rows.map (fun _ => Cell.bool false))) := by
  have hrun := flag_abnormal_prices_run df hA hfresh
  have hget : getCol? (flag_abnormal_prices df) HAS_ABNORMAL_PRICE =
      some (ruleFlagCol df RuleId.priceRange) := by
    rw [hrun]
    exact getCol?_appendCol_self hA hfresh (ruleFlagCol_length df _)
  constructor
  · intro _
    exact hget
  · intro hcp
    rw [hget]
    refine congrArg some (List.map_congr_left ?_)
    intro r _
    rw [rowCell_of_not_mem hcp r]
    rfl

/-- C6 witness: prices exactly at the bounds 1e-6 and 1e6 are not flagged,
prices 9.9e-7 and 1.000001e6 are flagged, and textual or missing prices are
not flagged. -/
theorem C6_price_range_rule_witness :
    getCol? (flag_abnormal_prices priceDF) HAS_ABNORMAL_PRICE =
      some [Cell.bool false, Cell.bool false, Cell.bool true, Cell.bool true,
        Cell.bool false, Cell.bool false] :=
  ((C6_price_range_rule priceDF (by decide) (by decide)).1 (by decide)).trans
    (by with_unfolding_all decide)

/-- C1: on a batch with `market_cap`, `current_price` and `circulating_supply`
columns, `flag_invalid_market_cap` flags exactly the records whose three
inputs all coerce to numbers and whose market cap is non-positive, or positive
with |market_cap − price × supply| / market_cap ≥ 5/100; records with a
missing or unparseable input are not flagged; when any of the three columns is
absent every record gets a false flag. -/
theorem C1_market_cap_rule (df : DF) (hA : df.Aligned)
    (hfresh : HAS_INVALID_MARKET_CAP ∉ df.cols) :
    (("market_cap" ∈ df.cols ∧ "current_price" ∈ df.cols ∧
        "circulating_supply" ∈ df.cols) →
      getCol? (flag_invalid_market_cap df) HAS_INVALID_MARKET_CAP =
        some (df.rows.map (fun r =>
          Cell.bool (marketCapRowInvalid (rowCell df r "market_cap")
            (rowCell df r "current_price")
            (rowCell df r "circulating_supply"))))) ∧
    (¬("market_cap" ∈ df.cols ∧ "current_price" ∈ df.cols ∧
        "circulating_supply" ∈ df.cols) →
      getCol? (flag_invalid_market_cap df) HAS_INVALID_MARKET_CAP =
        some (df.rows.map (fun _ => Cell.bool false))) := by
  have hrun := flag_invalid_market_cap_run df hA hfresh
  have hget : getCol? (flag_invalid_market_cap df) HAS_INVALID_MARKET_CAP =
      some (ruleFlagCol df RuleId.marketCap) := by
    rw [hrun]
    exact getCol?_appendCol_self hA hfresh (ruleFlagCol_length df _)
  constructor
  · intro _
    exact hget
  · intro h3
    rw [hget]
    refine congrArg some (List.map_congr_left ?_)
    intro r _
    rcases not_and_or.mp h3 with hmiss | hrest
    · rw [rowCell_of_not_mem hmiss r, marketCapRowInvalid_mc_missing]
    rcases not_and_or.mp hrest with hmiss | hmiss
    · rw [rowCell_of_not_mem hmiss r, marketCapRowInvalid_pr_missing]
    · rw [rowCell_of_not_mem hmiss r, marketCapRowInvalid_su_missing]

/-- C1 witness: with price 100 and supply 1,000,000 (expected cap 1e8), a cap
of 104e6 (4 percent error) is not flagged, 110e6 (10 percent) is flagged, a
zero and a negative cap are flagged, a cap of 1e8/1.05 (exactly 5 percent
error) is flagged, and an unparseable cap is not flagged. -/
theorem C1_market_cap_rule_witness :
    getCol? (flag_invalid_market_cap marketCapDF) HAS_INVALID_MARKET_CAP =
      some [Cell.bool false, Cell.bool true, Cell.bool true, Cell.bool true,
        Cell.bool true, Cell.bool false] :=
  ((C1_market_cap_rule marketCapDF (by decide) (by decide)).1 (by decide)).trans
    (by with_unfolding_all decide)

/-- C7: on a batch with an `id` column, `flag_duplicates` flags a record
exactly when its id value equals the id of an earlier record (first occurrence
kept, original order); when the column is absent every record gets a false
flag. -/
theorem C7_duplicate_rule (df : DF) (hA : df.Aligned)
    (hfresh : HAS_DUPLICATE ∉ df.cols) :
    ("id" ∈ df.cols →
      getCol? (flag_duplicates df) HAS_DUPLICATE =
        some ((List.range df.rows.length).map (fun i =>
          Cell.bool (decide ((colCells df "id").getD i Cell.missing ∈
            (colCells df "id").take i))))) ∧
    ("id" ∉ df.cols →
      getCol? (flag_duplicates df) HAS_DUPLICATE =
        some (df.rows.map (fun _ => Cell.bool false))) := by
  have hrun := flag_duplicates_run df hA hfresh
  have hget : getCol? (flag_duplicates df) HAS_DUPLICATE =
      some (ruleFlagCol df RuleId.duplicates) := by
    rw [hrun]
    exact getCol?_appendCol_self hA hfresh (ruleFlagCol_length df _)
  constructor
  · intro hid
    rw [hget]
    refine congrArg some ?_
    show (if "id" ∈ df.cols then (dupMask [] (colCells df "id")).map Cell.bool
      else df.rows.map (fun _ => Cell.bool false)) = _
    rw [if_pos hid, dupMask_eq [] (colCells df "id"), List.map_map,
      colCells_length]
    refine List.map_congr_left ?_
    intro i _
    simp
  · intro hid
    rw [hget]
    refine congrArg some ?_
    show (if "id" ∈ df.cols then (dupMask [] (colCells df "id")).map Cell.bool
      else df.rows.map (fun _ => Cell.bool false)) = _
    rw [if_neg hid]

/-- C7 witness: the id sequence [A, A, B] yields the flags
[false, true, false]. -/
theorem C7_duplicate_rule_witness :
    getCol? (flag_duplicates dupDF) HAS_DUPLICATE =
      some [Cell.bool false, Cell.bool true, Cell.bool false] :=
  ((C7_duplicate_rule dupDF (by decide) (by decide)).1 (by decide)).trans
    (by with_unfolding_all decide)

theorem mem_setCol_cols {df : DF} {c : String} (vals : List Cell) {x : String} :
    x ∈ (setCol df c vals).cols ↔ x ∈ df.cols ∨ x = c := by
  unfold setCol
  cases h : colIdx df c with
  | some j =>
    obtain ⟨hj, hc⟩ := colIdx_spec h
    have hcmem : c ∈ df.cols := hc ▸ List.getElem_mem hj
    show x ∈ df.cols ↔ _
    constructor
    · exact Or.inl
    · rintro (hx | rfl)
      · exact hx
      · exact hcmem
  | none => exact mem_appendCol_cols

/-- C2 counterexample: on a one-column batch, `flag_missing_values` raises
`KeyError` (the selection `df[REQUIRED_FIELDS]` has no column guard), so a
rule run is not a flagged batch for every table-shaped input. -/
theorem C2_counterexample :
    flag_missing_values (DF.mk ["symbol"] [[Cell.text "btc"]]) = none := by
  decide

/-- C2 as amended: the four guarded rules always return a flagged batch
carrying their flag column, and `flag_missing_values` returns a flagged batch
exactly when all 7 required columns are present, raising otherwise. -/
theorem C2_no_raise (df : DF) (hA : df.Aligned)
    (hfresh : ∀ rid : RuleId, flagName rid ∉ df.cols) :
    (getCol? (flag_invalid_numeric_types df) HAS_NON_NUMERIC_VALUE).isSome = true ∧
    (getCol? (flag_abnormal_prices df) HAS_ABNORMAL_PRICE).isSome = true ∧
    (getCol? (flag_invalid_market_cap df) HAS_INVALID_MARKET_CAP).isSome = true ∧
    (getCol? (flag_duplicates df) HAS_DUPLICATE).isSome = true ∧
    ((flag_missing_values df).isSome = true ↔ ∀ c ∈ REQUIRED_FIELDS, c ∈ df.cols) := by
  refine ⟨?_, ?_, ?_, ?_, ?_⟩
  · rw [flag_invalid_numeric_types_run df hA (hfresh RuleId.numericTypes),
      getCol?_appendCol_self hA
        (show HAS_NON_NUMERIC_VALUE ∉ df.cols from hfresh RuleId.numericTypes)
        (ruleFlagCol_length df _)]
    rfl
  · rw [flag_abnormal_prices_run df hA (hfresh RuleId.priceRange),
      getCol?_appendCol_self hA
        (show HAS_ABNORMAL_PRICE ∉ df.cols from hfresh RuleId.priceRange)
        (ruleFlagCol_length df _)]
    rfl
  · rw [flag_invalid_market_cap_run df hA (hfresh RuleId.marketCap),
      getCol?_appendCol_self hA
        (show HAS_INVALID_MARKET_CAP ∉ df.cols from hfresh RuleId.marketCap)
        (ruleFlagCol_length df _)]
    rfl
  · rw [flag_duplicates_run df hA (hfresh RuleId.duplicates),
      getCol?_appendCol_self hA
        (show HAS_DUPLICATE ∉ df.cols from hfresh RuleId.duplicates)
        (ruleFlagCol_length df _)]
    rfl
  · by_cases hreq : ∀ c ∈ REQUIRED_FIELDS, c ∈ df.cols
    · rw [flag_missing_values_run_pos df hA (hfresh RuleId.missingValues) hreq]
      exact iff_of_true rfl hreq
    · rw [flag_missing_values_run_neg df (hfresh RuleId.missingValues) hreq]
      exact iff_of_false (by simp) hreq

/-- C2 witness: on a complete one-row batch every rule produces its flag
column and `flag_missing_values` succeeds. -/
theorem C2_no_raise_witness :
    (getCol? (flag_invalid_numeric_types sampleDF) HAS_NON_NUMERIC_VALUE).isSome
        = true ∧
    (getCol? (flag_abnormal_prices sampleDF) HAS_ABNORMAL_PRICE).isSome = true ∧
    (getCol? (flag_invalid_market_cap sampleDF) HAS_INVALID_MARKET_CAP).isSome
        = true ∧
    (getCol? (flag_duplicates sampleDF) HAS_DUPLICATE).isSome = true ∧
    ((flag_missing_values sampleDF).isSome = true ↔
      ∀ c ∈ REQUIRED_FIELDS, c ∈ sampleDF.cols) :=
  C2_no_raise sampleDF (by decide) (by intro rid; cases rid <;> decide)

/-- C3 counterexample: a one-row, zero-column batch has a record and lacks the
required `id` column, yet `validate_schema` returns EMPTY_DATA (pandas
`DataFrame.empty` is true when any axis is empty), not
MISSING_REQUIRED_FIELDS as the claimed check order would give. -/
theorem C3_counterexample :
    validate_schema (BatchInput.table (DF.mk [] [[]])) =
        SchemaValidationStatus.emptyData ∧
    (DF.mk [] [[]]).rows.length = 1 ∧
    "id" ∈ REQUIRED_FIELDS ∧ "id" ∉ (DF.mk [] [[]]).cols := by
  refine ⟨rfl, rfl, by decide, by decide⟩

/-- C3 as amended: `validate_schema` returns EMPTY_DATA on a null reference,
INVALID_TYPE on a non-table, EMPTY_DATA when the batch has zero records or
zero columns, MISSING_REQUIRED_FIELDS when a required column is absent, and
VALID otherwise, in that order. -/
theorem C3_schema_gate :
    validate_schema BatchInput.null = SchemaValidationStatus.emptyData ∧
    validate_schema BatchInput.nonTable = SchemaValidationStatus.invalidType ∧
    ∀ df : DF, validate_schema (BatchInput.table df) =
      if df.rows.isEmpty || df.cols.isEmpty then SchemaValidationStatus.emptyData
      else if ∀ c ∈ REQUIRED_FIELDS, c ∈ df.cols then SchemaValidationStatus.valid
      else SchemaValidationStatus.missingRequiredFields := by
  refine ⟨rfl, rfl, ?_⟩
  intro df
  show (if DF.emptyTable df then SchemaValidationStatus.emptyData
    else if (REQUIRED_FIELDS.filter (fun c => decide (c ∉ df.cols))).isEmpty then
      SchemaValidationStatus.valid
    else SchemaValidationStatus.missingRequiredFields) = _
  unfold DF.emptyTable
  by_cases hempty : (df.rows.isEmpty || df.cols.isEmpty) = true
  · rw [if_pos hempty, if_pos hempty]
  · rw [if_neg hempty, if_neg hempty]
    by_cases hreq : ∀ c ∈ REQUIRED_FIELDS, c ∈ df.cols
    · rw [if_pos ?_, if_pos hreq]
      rw [List.isEmpty_iff, List.filter_eq_nil_iff]
      intro c hc
      simp [hreq c hc]
    · rw [if_neg ?_, if_neg hreq]
      rw [List.isEmpty_iff, List.filter_eq_nil_iff]
      intro hall
      refine hreq (fun c hc => ?_)
      have := hall c hc
      simpa using this

/-- C9: `generate_schema_error_report` always produces a FAILED report at
stage `schema_validation` with empty validations, the summary
{passed: [], failed: [schema_validation]}, the error field holding the status
value, and the message determined by the status — one fixed text for
EMPTY_DATA, INVALID_TYPE and MISSING_REQUIRED_FIELDS, and the default
"Unknown schema error" for any other status, VALID included. -/
theorem C9_schema_error_report (s : SchemaValidationStatus) :
    generate_schema_error_report s =
      { status := ValidationStatus.failed,
        stage := "schema_validation",
        error := s.value,
        error_message :=
          match s with
          | SchemaValidationStatus.emptyData => "DataFrame is empty or None"
          | SchemaValidationStatus.invalidType => "Input is not a valid DataFrame"
          | SchemaValidationStatus.missingRequiredFields => "Missing required fields"
          | SchemaValidationStatus.valid => "Unknown schema error",
        validations := [],
        summaryPassed := [],
        summaryFailed := ["schema_validation"] } := by
  cases s <;> rfl

/-- C10: on a batch carrying none of the five flag columns,
`generate_validation_report` returns normally with a PASSED report: the batch
size as total_rows, five SKIPPED items with reason `validation_not_run`,
nothing executed, and all five rule names skipped. -/
theorem C10_report_without_flags (df : DF)
    (h : ∀ rid : RuleId, flagName rid ∉ df.cols) :
    generate_validation_report df = some
      { status := ValidationStatus.passed,
        stage := "data_validation",
        total_rows := df.rows.length,
        validations :=
          [("numeric_types", ItemReport.skippedItem "validation_not_run"),
           ("price_range", ItemReport.skippedItem "validation_not_run"),
           ("market_cap", ItemReport.skippedItem "validation_not_run"),
           ("missing_values", ItemReport.skippedItem "validation_not_run"),
           ("duplicates", ItemReport.skippedItem "validation_not_run")],
        summaryTotal := 5,
        summaryExecuted := 0,
        summaryPassed := [],
        summaryFailed := [],
        summarySkipped := ["numeric_types", "price_range", "market_cap",
          "missing_values", "duplicates"] } := by
  unfold generate_validation_report generate_flag_report
  rw [if_neg (show ¬ HAS_NON_NUMERIC_VALUE ∈ df.cols from h RuleId.numericTypes),
    if_neg (show ¬ HAS_ABNORMAL_PRICE ∈ df.cols from h RuleId.priceRange),
    if_neg (show ¬ HAS_INVALID_MARKET_CAP ∈ df.cols from h RuleId.marketCap),
    if_neg (show ¬ HAS_MISSING_VALUES ∈ df.cols from h RuleId.missingValues),
    if_neg (show ¬ HAS_DUPLICATE ∈ df.cols from h RuleId.duplicates)]
  rfl

/-- C10 witness: the unflagged one-row sample batch yields the all-skipped
PASSED report. -/
theorem C10_report_without_flags_witness :
    generate_validation_report sampleDF = some
      { status := ValidationStatus.passed,
        stage := "data_validation",
        total_rows := 1,
        validations :=
          [("numeric_types", ItemReport.skippedItem "validation_not_run"),
           ("price_range", ItemReport.skippedItem "validation_not_run"),
           ("market_cap", ItemReport.skippedItem "validation_not_run"),
           ("missing_values", ItemReport.skippedItem "validation_not_run"),
           ("duplicates", ItemReport.skippedItem "validation_not_run")],
        summaryTotal := 5,
        summaryExecuted := 0,
        summaryPassed := [],
        summaryFailed := [],
        summarySkipped := ["numeric_types", "price_range", "market_cap",
          "missing_values", "duplicates"] } :=
  C10_report_without_flags sampleDF (by intro rid; cases rid <;> decide)

theorem pyRound2_one_of_three :
    pyRound2 (100 * ((1 : Nat) : ℚ) / ((3 : Nat) : ℚ)) = (3333 : ℚ)/100 := by
  have h1 : (100 * ((1 : Nat) : ℚ) / ((3 : Nat) : ℚ)) = 100/3 := by
    push_cast
    ring
  rw [h1]
  unfold pyRound2
  simp only []
  have hf : ⌊((100 : ℚ)/3) * 100⌋ = 3333 := by
    rw [show ((100:ℚ)/3 * 100) = 10000/3 from by ring, Int.floor_eq_iff]
    norm_num
  rw [hf, if_pos (by norm_num)]
  norm_num

theorem generate_flag_report_cases (df : DF) (fc : String) (ec : List String)
    (hne : ec.isEmpty = false) :
    (fc ∉ df.cols →
      generate_flag_report df fc ec =
        some (ItemReport.skippedItem "validation_not_run")) ∧
    (fc ∈ df.cols → countTrue (colCells df fc) = 0 →
      generate_flag_report df fc ec =
        some (ItemReport.passedItem df.rows.length 0)) ∧
    (fc ∈ df.cols → countTrue (colCells df fc) ≠ 0 → (∀ c ∈ ec, c ∈ df.cols) →
      generate_flag_report df fc ec =
        some (ItemReport.failedItem df.rows.length (countTrue (colCells df fc))
          (pyRound2 (100 * (countTrue (colCells df fc) : ℚ) / (df.rows.length : ℚ)))
          (some (((df.rows.filter
              (fun r => rowCell df r fc = Cell.bool true)).take 5).map
            (fun r => ec.map (fun c => (c, rowCell df r c))))))) := by
  unfold generate_flag_report
  refine ⟨?_, ?_, ?_⟩
  · intro hfc
    rw [if_neg hfc]
  · intro hfc hzero
    rw [if_pos hfc, if_pos hzero]
  · intro hfc hnz hall
    rw [if_pos hfc, if_neg hnz, if_neg (by simp [hne]),
      if_pos (List.all_eq_true.mpr (fun c hc => decide_eq_true (hall c hc))),
      show ((countTrue (colCells df fc) : ℚ) / (df.rows.length : ℚ) * 100) =
        100 * (countTrue (colCells df fc) : ℚ) / (df.rows.length : ℚ) from by
          ring]

/-- C4: for each of the five rules' (flag column, example columns) pairs, the
item report is SKIPPED with reason `validation_not_run` when the flag column
is absent; PASSED with failed_count 0 when it is present with no true flag;
and otherwise FAILED with failed_count the number of true flags,
failed_percentage = round(100 × failed_count / total_rows, 2), and up to 5
example records in original batch order projected onto the rule's example
columns. -/
theorem C4_flag_item_report (df : DF) (fc : String) (ec : List String)
    (hspec : (fc, ec) ∈ ruleReportSpecs) :
    (fc ∉ df.cols →
      generate_flag_report df fc ec =
        some (ItemReport.skippedItem "validation_not_run")) ∧
    (fc ∈ df.cols → countTrue (colCells df fc) = 0 →
      generate_flag_report df fc ec =
        some (ItemReport.passedItem df.rows.length 0)) ∧
    (fc ∈ df.cols → countTrue (colCells df fc) ≠ 0 → (∀ c ∈ ec, c ∈ df.cols) →
      generate_flag_report df fc ec =
        some (ItemReport.failedItem df.rows.length (countTrue (colCells df fc))
          (pyRound2 (100 * (countTrue (colCells df fc) : ℚ) / (df.rows.length : ℚ)))
          (some (((df.rows.filter
              (fun r => rowCell df r fc = Cell.bool true)).take 5).map
            (fun r => ec.map (fun c => (c, rowCell df r c))))))) := by
  simp only [ruleReportSpecs, List.mem_cons, List.mem_singleton,
    Prod.mk.injEq, List.not_mem_nil, or_false] at hspec
  rcases hspec with ⟨rfl, rfl⟩ | ⟨rfl, rfl⟩ | ⟨rfl, rfl⟩ | ⟨rfl, rfl⟩ | ⟨rfl, rfl⟩ <;>
    exact generate_flag_report_cases df _ _ rfl

set_option maxRecDepth 4000 in
/-- C4 witness: one duplicate flag among three rows yields a FAILED item with
failed_percentage 33.33 and the single flagged row, projected onto id, symbol
and name, as the example. -/
theorem C4_flag_item_report_witness :
    generate_flag_report reportDF HAS_DUPLICATE ["id", "symbol", "name"] =
      some (ItemReport.failedItem 3 1 ((3333 : ℚ)/100)
        (some [[("id", Cell.text "a"), ("symbol", Cell.text "s2"),
          ("name", Cell.text "n2")]])) := by
  have h := (C4_flag_item_report reportDF HAS_DUPLICATE ["id", "symbol", "name"]
    (by simp [ruleReportSpecs])).2.2 (by decide) (by decide) (by decide)
  refine h.trans (congrArg some ?_)
  have hc : countTrue (colCells reportDF HAS_DUPLICATE) = 1 := by decide
  have hl : reportDF.rows.length = 3 := rfl
  rw [hc, hl]
  congr 1
  exact pyRound2_one_of_three

theorem summarize_spec :
    ∀ (items : List (String × ItemReport)) (rep : ValidationReport),
    (summarize items rep).status = rep.status ∧
    (summarize items rep).stage = rep.stage ∧
    (summarize items rep).total_rows = rep.total_rows ∧
    (summarize items rep).validations = rep.validations ∧
    (summarize items rep).summaryTotal = rep.summaryTotal ∧
    (summarize items rep).summaryPassed = rep.summaryPassed ++
      (items.filter (fun kv => kv.2.status = ValidationStatus.passed)).map Prod.fst ∧
    (summarize items rep).summaryFailed = rep.summaryFailed ++
      (items.filter (fun kv => kv.2.status = ValidationStatus.failed)).map Prod.fst ∧
    (summarize items rep).summarySkipped = rep.summarySkipped ++
      (items.filter (fun kv => kv.2.status = ValidationStatus.skipped)).map Prod.fst ∧
    (summarize items rep).summaryExecuted = rep.summaryExecuted +
      (items.filter (fun kv => kv.2.status = ValidationStatus.passed)).length +
      (items.filter (fun kv => kv.2.status = ValidationStatus.failed)).length := by
  intro items
  induction items with
  | nil =>
    intro rep
    refine ⟨rfl, rfl, rfl, rfl, rfl, by simp [summarize], by simp [summarize],
      by simp [summarize], by simp [summarize]⟩
  | cons kv rest ih =>
    intro rep
    obtain ⟨n, it⟩ := kv
    cases hst : it.status with
    | passed =>
      have hstep : summarizeStep rep (n, it) =
          { rep with summaryPassed := rep.summaryPassed ++ [n],
                     summaryExecuted := rep.summaryExecuted + 1 } := by
        show (match it.status with
          | ValidationStatus.passed =>
              { rep with summaryPassed := rep.summaryPassed ++ [n],
                         summaryExecuted := rep.summaryExecuted + 1 }
          | ValidationStatus.failed =>
              { rep with summaryFailed := rep.summaryFailed ++ [n],
                         summaryExecuted := rep.summaryExecuted + 1 }
          | ValidationStatus.skipped =>
              { rep with summarySkipped := rep.summarySkipped ++ [n] }) = _
        rw [hst]
      have hcons : summarize ((n, it) :: rest) rep = summarize rest
          { rep with summaryPassed := rep.summaryPassed ++ [n],
                     summaryExecuted := rep.summaryExecuted + 1 } := by
        rw [show summarize ((n, it) :: rest) rep =
          summarize rest (summarizeStep rep (n, it)) from rfl, hstep]
      rw [hcons]
      obtain ⟨e1, e2, e3, e4, e5, e6, e7, e8, e9⟩ := ih
        { rep with summaryPassed := rep.summaryPassed ++ [n],
                   summaryExecuted := rep.summaryExecuted + 1 }
      refine ⟨e1, e2, e3, e4, e5, ?_, ?_, ?_, ?_⟩
      · rw [e6]
        simp [List.filter_cons, hst]
      · rw [e7]
        simp [List.filter_cons, hst]
      · rw [e8]
        simp [List.filter_cons, hst]
      · rw [e9]
        simp [List.filter_cons, hst]
        omega
    | failed =>
      have hstep : summarizeStep rep (n, it) =
          { rep with summaryFailed := rep.summaryFailed ++ [n],
                     summaryExecuted := rep.summaryExecuted + 1 } := by
        show (match it.status with
          | ValidationStatus.passed =>
              { rep with summaryPassed := rep.summaryPassed ++ [n],
                         summaryExecuted := rep.summaryExecuted + 1 }
          | ValidationStatus.failed =>
              { rep with summaryFailed := rep.summaryFailed ++ [n],
                         summaryExecuted := rep.summaryExecuted + 1 }
          | ValidationStatus.skipped =>
              { rep with summarySkipped := rep.summarySkipped ++ [n] }) = _
        rw [hst]
      have hcons : summarize ((n, it) :: rest) rep = summarize rest
          { rep with summaryFailed := rep.summaryFailed ++ [n],
                     summaryExecuted := rep.summaryExecuted + 1 } := by
        rw [show summarize ((n, it) :: rest) rep =
          summarize rest (summarizeStep rep (n, it)) from rfl, hstep]
      rw [hcons]
      obtain ⟨e1, e2, e3, e4, e5, e6, e7, e8, e9⟩ := ih
        { rep with summaryFailed := rep.summaryFailed ++ [n],
                   summaryExecuted := rep.summaryExecuted + 1 }
      refine ⟨e1, e2, e3, e4, e5, ?_, ?_, ?_, ?_⟩
      · rw [e6]
        simp [List.filter_cons, hst]
      · rw [e7]
        simp [List.filter_cons, hst]
      · rw [e8]
        simp [List.filter_cons, hst]
      · rw [e9]
        simp [List.filter_cons, hst]
        omega
    | skipped =>
      have hstep : summarizeStep rep (n, it) =
          { rep with summarySkipped := rep.summarySkipped ++ [n] } := by
        show (match it.status with
          | ValidationStatus.passed =>
              { rep with summaryPassed := rep.summaryPassed ++ [n],
                         summaryExecuted := rep.summaryExecuted + 1 }
          | ValidationStatus.failed =>
              { rep with summaryFailed := rep.summaryFailed ++ [n],
                         summaryExecuted := rep.summaryExecuted + 1 }
          | ValidationStatus.skipped =>
              { rep with summarySkipped := rep.summarySkipped ++ [n] }) = _
        rw [hst]
      have hcons : summarize ((n, it) :: rest) rep = summarize rest
          { rep with summarySkipped := rep.summarySkipped ++ [n] } := by
        rw [show summarize ((n, it) :: rest) rep =
          summarize rest (summarizeStep rep (n, it)) from rfl, hstep]
      rw [hcons]
      obtain ⟨e1, e2, e3, e4, e5, e6, e7, e8, e9⟩ := ih
        { rep with summarySkipped := rep.summarySkipped ++ [n] }
      refine ⟨e1, e2, e3, e4, e5, ?_, ?_, ?_, ?_⟩
      · rw [e6]
        simp [List.filter_cons, hst]
      · rw [e7]
        simp [List.filter_cons, hst]
      · rw [e8]
        simp [List.filter_cons, hst]
      · rw [e9]
        simp [List.filter_cons, hst]

theorem summarize_validations (items : List (String × ItemReport))
    (rep : ValidationReport) :
    (summarize items rep).validations = rep.validations :=
  (summarize_spec items rep).2.2.2.1

theorem summarize_summaryTotal (items : List (String × ItemReport))
    (rep : ValidationReport) :
    (summarize items rep).summaryTotal = rep.summaryTotal :=
  (summarize_spec items rep).2.2.2.2.1

theorem summarize_summaryPassed (items : List (String × ItemReport))
    (rep : ValidationReport) :
    (summarize items rep).summaryPassed = rep.summaryPassed ++
      (items.filter (fun kv => kv.2.status = ValidationStatus.passed)).map
        Prod.fst :=
  (summarize_spec items rep).2.2.2.2.2.1

theorem summarize_summaryFailed (items : List (String × ItemReport))
    (rep : ValidationReport) :
    (summarize items rep).summaryFailed = rep.summaryFailed ++
      (items.filter (fun kv => kv.2.status = ValidationStatus.failed)).map
        Prod.fst :=
  (summarize_spec items rep).2.2.2.2.2.2.1

theorem summarize_summarySkipped (items : List (String × ItemReport))
    (rep : ValidationReport) :
    (summarize items rep).summarySkipped = rep.summarySkipped ++
      (items.filter (fun kv => kv.2.status = ValidationStatus.skipped)).map
        Prod.fst :=
  (summarize_spec items rep).2.2.2.2.2.2.2.1

theorem summarize_summaryExecuted (items : List (String × ItemReport))
    (rep : ValidationReport) :
    (summarize items rep).summaryExecuted = rep.summaryExecuted +
      (items.filter (fun kv => kv.2.status = ValidationStatus.passed)).length +
      (items.filter (fun kv => kv.2.status = ValidationStatus.failed)).length :=
  (summarize_spec items rep).2.2.2.2.2.2.2.2

theorem status_if_failed (l : List String) :
    ((if l.isEmpty then ValidationStatus.passed else ValidationStatus.failed) =
      ValidationStatus.failed ↔ l ≠ []) := by
  cases l <;> simp

theorem status_if_passed (l : List String) :
    l = [] →
    (if l.isEmpty then ValidationStatus.passed else ValidationStatus.failed) =
      ValidationStatus.passed := by
  cases l <;> simp

/-- C5: for every report `generate_validation_report` returns, summary.total
is 5, the validations are keyed by the five rule names in order, the passed,
failed and skipped lists hold exactly the names of the items with that status
(so each rule name lands in exactly one list), executed counts the PASSED and
FAILED items, and the overall status is FAILED exactly when the failed list is
non-empty, PASSED otherwise. -/
theorem C5_report_aggregation (df : DF) (r : ValidationReport)
    (h : generate_validation_report df = some r) :
    r.summaryTotal = 5 ∧
    r.validations.map Prod.fst =
      ["numeric_types", "price_range", "market_cap", "missing_values",
       "duplicates"] ∧
    r.summaryPassed = (r.validations.filter
      (fun kv => kv.2.status = ValidationStatus.passed)).map Prod.fst ∧
    r.summaryFailed = (r.validations.filter
      (fun kv => kv.2.status = ValidationStatus.failed)).map Prod.fst ∧
    r.summarySkipped = (r.validations.filter
      (fun kv => kv.2.status = ValidationStatus.skipped)).map Prod.fst ∧
    r.summaryExecuted = r.summaryPassed.length + r.summaryFailed.length ∧
    (r.status = ValidationStatus.failed ↔ r.summaryFailed ≠ []) ∧
    (r.summaryFailed = [] → r.status = ValidationStatus.passed) := by
  unfold generate_validation_report at h
  simp only [bind, Option.bind_eq_some, Option.pure_def, Option.some.injEq] at h
  obtain ⟨i1, h1, i2, h2, i3, h3, i4, h4, i5, h5, hr⟩ := h
  subst hr
  refine ⟨?_, ?_, ?_, ?_, ?_, ?_, ?_, ?_⟩
  · dsimp only
    rw [summarize_summaryTotal]
    rfl
  · dsimp only
    rw [summarize_validations]
    rfl
  · dsimp only
    rw [summarize_summaryPassed, summarize_validations]
    rfl
  · dsimp only
    rw [summarize_summaryFailed, summarize_validations]
    rfl
  · dsimp only
    rw [summarize_summarySkipped, summarize_validations]
    rfl
  · dsimp only
    rw [summarize_summaryExecuted, summarize_summaryPassed,
      summarize_summaryFailed]
    simp [List.length_map]
  · dsimp only
    exact status_if_failed _
  · dsimp only
    exact status_if_passed _

set_option maxRecDepth 4000 in
theorem generate_validation_report_reportDF :
    generate_validation_report reportDF = some reportDFreport := by
  have h1 : generate_flag_report reportDF HAS_NON_NUMERIC_VALUE
      ["symbol", "name"] = some (ItemReport.skippedItem "validation_not_run") :=
    (generate_flag_report_cases reportDF HAS_NON_NUMERIC_VALUE
      ["symbol", "name"] rfl).1 (by decide)
  have h2 : generate_flag_report reportDF HAS_ABNORMAL_PRICE
      ["symbol", "name", "current_price"] =
      some (ItemReport.skippedItem "validation_not_run") :=
    (generate_flag_report_cases reportDF HAS_ABNORMAL_PRICE
      ["symbol", "name", "current_price"] rfl).1 (by decide)
  have h3 : generate_flag_report reportDF HAS_INVALID_MARKET_CAP
      ["symbol", "name", "market_cap", "current_price", "circulating_supply"] =
      some (ItemReport.skippedItem "validation_not_run") :=
    (generate_flag_report_cases reportDF HAS_INVALID_MARKET_CAP
      ["symbol", "name", "market_cap", "current_price", "circulating_supply"]
      rfl).1 (by decide)
  have h4 : generate_flag_report reportDF HAS_MISSING_VALUES
      ["symbol", "name"] = some (ItemReport.skippedItem "validation_not_run") :=
    (generate_flag_report_cases reportDF HAS_MISSING_VALUES
      ["symbol", "name"] rfl).1 (by decide)
  have h5 : generate_flag_report reportDF HAS_DUPLICATE
      ["id", "symbol", "name"] =
      some (ItemReport.failedItem 3 1 ((3333 : ℚ)/100)
        (some [[("id", Cell.text "a"), ("symbol", Cell.text "s2"),
          ("name", Cell.text "n2")]])) := by
    have h := (generate_flag_report_cases reportDF HAS_DUPLICATE
      ["id", "symbol", "name"] rfl).2.2 (by decide) (by decide) (by decide)
    refine h.trans (congrArg some ?_)
    have hc : countTrue (colCells reportDF HAS_DUPLICATE) = 1 := by decide
    have hl : reportDF.rows.length = 3 := rfl
    rw [hc, hl]
    congr 1
    exact pyRound2_one_of_three
  unfold generate_validation_report
  rw [h1, h2, h3, h4, h5]
  rfl

/-- C5 witness: the report on `reportDF` has one failed rule and four skipped
rules, total 5, executed 1, and overall status FAILED. -/
theorem C5_report_aggregation_witness :
    reportDFreport.summaryTotal = 5 ∧
    reportDFreport.validations.map Prod.fst =
      ["numeric_types", "price_range", "market_cap", "missing_values",
       "duplicates"] ∧
    reportDFreport.summaryPassed = (reportDFreport.validations.filter
      (fun kv => kv.2.status = ValidationStatus.passed)).map Prod.fst ∧
    reportDFreport.summaryFailed = (reportDFreport.validations.filter
      (fun kv => kv.2.status = ValidationStatus.failed)).map Prod.fst ∧
    reportDFreport.summarySkipped = (reportDFreport.validations.filter
      (fun kv => kv.2.status = ValidationStatus.skipped)).map Prod.fst ∧
    reportDFreport.summaryExecuted =
      reportDFreport.summaryPassed.length + reportDFreport.summaryFailed.length ∧
    (reportDFreport.status = ValidationStatus.failed ↔
      reportDFreport.summaryFailed ≠ []) ∧
    (reportDFreport.summaryFailed = [] →
      reportDFreport.status = ValidationStatus.passed) :=
  C5_report_aggregation reportDF reportDFreport
    (generate_validation_report_reportDF)

/-! Order independence of the five flag rules (C8). -/

theorem flagName_inj {a b : RuleId} (h : flagName a = flagName b) : a = b := by
  cases a <;> cases b <;> first | rfl | exact absurd h (by decide)

theorem rid_mem_allRules (rid : RuleId) : rid ∈ allRules := by
  cases rid <;> simp [allRules]

theorem allRules_nodup : allRules.Nodup := by decide

theorem flagName_not_numeric (rid : RuleId) : flagName rid ∉ NUMERIC_FIELDS := by
  cases rid <;> decide

theorem flagName_not_required (rid : RuleId) : flagName rid ∉ REQUIRED_FIELDS := by
  cases rid <;> decide

theorem flagName_ne_cp (rid : RuleId) : "current_price" ≠ flagName rid := by
  cases rid <;> decide

theorem flagName_ne_mc (rid : RuleId) : "market_cap" ≠ flagName rid := by
  cases rid <;> decide

theorem flagName_ne_cs (rid : RuleId) : "circulating_supply" ≠ flagName rid := by
  cases rid <;> decide

theorem flagName_ne_id (rid : RuleId) : "id" ≠ flagName rid := by
  cases rid <;> decide

theorem runRule_fresh (rid : RuleId) (d : DF) (hA : d.Aligned)
    (hn : flagName rid ∉ d.cols)
    (hreq : ∀ c ∈ REQUIRED_FIELDS, c ∈ d.cols) :
    runRule rid d = some (appendCol d (ruleFlagCol d rid) (flagName rid)) := by
  cases rid with
  | numericTypes => exact congrArg some (flag_invalid_numeric_types_run d hA hn)
  | priceRange => exact congrArg some (flag_abnormal_prices_run d hA hn)
  | marketCap => exact congrArg some (flag_invalid_market_cap_run d hA hn)
  | missingValues => exact flag_missing_values_run_pos d hA hn hreq
  | duplicates => exact congrArg some (flag_duplicates_run d hA hn)

theorem rowCell_appendCol_row {d : DF} (hA : d.Aligned) {c n : String}
    (hc : c ≠ n) (vals : List Cell) {r : List Cell} (hr : r ∈ d.rows)
    (v : Cell) :
    rowCell (appendCol d vals n) (r ++ [v]) c = rowCell d r c := by
  unfold rowCell
  rw [colIdx_appendCol_other hc vals]
  cases hidx : colIdx d c with
  | none => rfl
  | some j =>
    obtain ⟨hj, _⟩ := colIdx_spec hidx
    exact getD_append_lt (by rw [hA r hr]; exact hj) Cell.missing

theorem ruleFlagCol_appendCol (d : DF) (hA : d.Aligned) (vals : List Cell)
    (hv : vals.length = d.rows.length) (rid rid' : RuleId) :
    ruleFlagCol (appendCol d vals (flagName rid')) rid = ruleFlagCol d rid := by
  cases rid with
  | numericTypes =>
    show (appendCol d vals (flagName rid')).rows.map _ = d.rows.map _
    show (List.zipWith (fun r v => r ++ [v]) d.rows vals).map _ = _
    rw [List.map_zipWith]
    refine zipWith_eq_map_left (by omega) ?_
    intro r hr v _
    refine congrArg Cell.bool (any_congr ?_)
    intro f hf
    refine congrArg nonNumericCell ?_
    exact rowCell_appendCol_row hA
      (fun heq => flagName_not_numeric rid' (by rw [← heq]; exact hf)) vals hr v
  | priceRange =>
    show (appendCol d vals (flagName rid')).rows.map _ = d.rows.map _
    show (List.zipWith (fun r v => r ++ [v]) d.rows vals).map _ = _
    rw [List.map_zipWith]
    refine zipWith_eq_map_left (by omega) ?_
    intro r hr v _
    exact congrArg (fun cl => Cell.bool (priceOutOfRange cl))
      (rowCell_appendCol_row hA (flagName_ne_cp rid') vals hr v)
  | marketCap =>
    show (appendCol d vals (flagName rid')).rows.map _ = d.rows.map _
    show (List.zipWith (fun r v => r ++ [v]) d.rows vals).map _ = _
    rw [List.map_zipWith]
    refine zipWith_eq_map_left (by omega) ?_
    intro r hr v _
    rw [rowCell_appendCol_row hA (flagName_ne_mc rid') vals hr v,
      rowCell_appendCol_row hA (flagName_ne_cp rid') vals hr v,
      rowCell_appendCol_row hA (flagName_ne_cs rid') vals hr v]
  | missingValues =>
    show (appendCol d vals (flagName rid')).rows.map _ = d.rows.map _
    show (List.zipWith (fun r v => r ++ [v]) d.rows vals).map _ = _
    rw [List.map_zipWith]
    refine zipWith_eq_map_left (by omega) ?_
    intro r hr v _
    refine congrArg Cell.bool (any_congr ?_)
    intro f hf
    refine congrArg isNull ?_
    exact rowCell_appendCol_row hA
      (fun heq => flagName_not_required rid' (by rw [← heq]; exact hf)) vals hr v
  | duplicates =>
    show (if "id" ∈ (appendCol d vals (flagName rid')).cols then
        (dupMask [] (colCells (appendCol d vals (flagName rid')) "id")).map
          Cell.bool
      else (appendCol d vals (flagName rid')).rows.map (fun _ => Cell.bool false))
      = _
    by_cases hid : "id" ∈ d.cols
    · rw [if_pos (mem_appendCol_cols.mpr (Or.inl hid)),
        colCells_appendCol_other hA (flagName_ne_id rid') hv]
      show _ = (if "id" ∈ d.cols then (dupMask [] (colCells d "id")).map Cell.bool
        else d.rows.map (fun _ => Cell.bool false))
      rw [if_pos hid]
    · rw [if_neg (by
        rw [mem_appendCol_cols]
        rintro (h | h)
        · exact hid h
        · exact flagName_ne_id rid' h)]
      show _ = (if "id" ∈ d.cols then (dupMask [] (colCells d "id")).map Cell.bool
        else d.rows.map (fun _ => Cell.bool false))
      rw [if_neg hid]
      show (List.zipWith (fun r v => r ++ [v]) d.rows vals).map _ = _
      rw [List.map_zipWith]
      exact zipWith_eq_map_left (by omega) (fun _ _ _ _ => rfl)

theorem extendDF_snoc (df : DF) (done : List RuleId) (rid : RuleId) :
    extendDF df (done ++ [rid]) =
      appendCol (extendDF df done) (ruleFlagCol df rid) (flagName rid) := by
  unfold extendDF
  rw [List.foldl_append]
  rfl

theorem extendDF_facts (df : DF) (hA : df.Aligned)
    (hfresh : ∀ rid : RuleId, flagName rid ∉ df.cols) :
    ∀ done : List RuleId, done.Nodup →
      (extendDF df done).Aligned ∧
      (extendDF df done).rows.length = df.rows.length ∧
      (∀ c : String, c ∈ (extendDF df done).cols ↔
        (c ∈ df.cols ∨ ∃ rid ∈ done, flagName rid = c)) ∧
      (∀ rid : RuleId,
        ruleFlagCol (extendDF df done) rid = ruleFlagCol df rid) ∧
      (∀ rid ∈ done,
        colCells (extendDF df done) (flagName rid) = ruleFlagCol df rid) ∧
      (∀ c : String, (∀ rid : RuleId, c ≠ flagName rid) →
        colCells (extendDF df done) c = colCells df c) := by
  intro done
  induction done using List.reverseRecOn with
  | nil =>
    intro _
    refine ⟨hA, rfl, ?_, fun _ => rfl, ?_, fun _ _ => rfl⟩
    · intro c
      simp [extendDF]
    · intro rid h
      simp at h
  | append_singleton done rid ih =>
    intro hnd
    have hdone : done.Nodup := (List.nodup_append.mp hnd).1
    have hnotin : rid ∉ done := fun hmem =>
      (List.nodup_append.mp hnd).2.2 hmem (List.mem_singleton_self rid)
    obtain ⟨a1, a2, a3, a4, a5, a6⟩ := ih hdone
    have hv : (ruleFlagCol df rid).length = (extendDF df done).rows.length := by
      rw [ruleFlagCol_length, a2]
    have hfr : flagName rid ∉ (extendDF df done).cols := by
      intro hmem
      rcases (a3 (flagName rid)).mp hmem with h | ⟨rid', hrid', heq⟩
      · exact hfresh rid h
      · exact hnotin (flagName_inj heq ▸ hrid')
    rw [extendDF_snoc]
    refine ⟨appendCol_aligned a1 (flagName rid), ?_, ?_, ?_, ?_, ?_⟩
    · rw [appendCol_rows_length hv, a2]
    · intro c
      rw [mem_appendCol_cols, a3 c]
      constructor
      · rintro ((h | ⟨rid', hrid', heq⟩) | h)
        · exact Or.inl h
        · exact Or.inr ⟨rid', List.mem_append_left _ hrid', heq⟩
        · exact Or.inr ⟨rid, List.mem_append_right _ (List.mem_singleton_self _),
            h.symm⟩
      · rintro (h | ⟨rid', hrid', heq⟩)
        · exact Or.inl (Or.inl h)
        · rcases List.mem_append.mp hrid' with h' | h'
          · exact Or.inl (Or.inr ⟨rid', h', heq⟩)
          · rw [List.mem_singleton] at h'
            exact Or.inr (h' ▸ heq).symm
    · intro rid''
      rw [ruleFlagCol_appendCol (extendDF df done) a1 (ruleFlagCol df rid)
        hv rid'' rid, a4 rid'']
    · intro rid' hrid'
      rcases List.mem_append.mp hrid' with h' | h'
      · have hne : flagName rid' ≠ flagName rid := fun heq =>
          hnotin (flagName_inj heq ▸ h')
        rw [colCells_appendCol_other a1 hne hv, a5 rid' h']
      · rw [List.mem_singleton] at h'
        subst h'
        rw [colCells_appendCol_self a1 hfr hv]
    · intro c hc
      rw [colCells_appendCol_other a1 (hc rid) hv, a6 c hc]

theorem runRules_from (df : DF) (hA : df.Aligned)
    (hreq : ∀ c ∈ REQUIRED_FIELDS, c ∈ df.cols)
    (hfresh : ∀ rid : RuleId, flagName rid ∉ df.cols) :
    ∀ (l done : List RuleId), (done ++ l).Nodup →
      runRules l (extendDF df done) = some (extendDF df (done ++ l)) := by
  intro l
  induction l with
  | nil =>
    intro done _
    simp [runRules]
  | cons rid rs ih =>
    intro done hnd
    have hdone : done.Nodup := (List.nodup_append.mp hnd).1
    have hnotin : rid ∉ done := fun hmem =>
      (List.nodup_append.mp hnd).2.2 hmem (List.mem_cons_self rid rs)
    obtain ⟨a1, a2, a3, a4, a5, a6⟩ := extendDF_facts df hA hfresh done hdone
    have hfr : flagName rid ∉ (extendDF df done).cols := by
      intro hmem
      rcases (a3 (flagName rid)).mp hmem with h | ⟨rid', hrid', heq⟩
      · exact hfresh rid h
      · exact hnotin (flagName_inj heq ▸ hrid')
    have hreq' : ∀ c ∈ REQUIRED_FIELDS, c ∈ (extendDF df done).cols :=
      fun c hc => (a3 c).mpr (Or.inl (hreq c hc))
    show (runRule rid (extendDF df done)).bind (runRules rs) = _
    rw [runRule_fresh rid _ a1 hfr hreq']
    show runRules rs (appendCol (extendDF df done)
      (ruleFlagCol (extendDF df done) rid) (flagName rid)) = _
    rw [a4 rid, ← extendDF_snoc]
    have hnd' : ((done ++ [rid]) ++ rs).Nodup := by
      rw [← List.append_cons]
      exact hnd
    rw [ih (done ++ [rid]) hnd', ← List.append_cons]

theorem ruleFlagCol_bool (df : DF) (rid : RuleId) :
    ∀ cl ∈ ruleFlagCol df rid, ∃ b, cl = Cell.bool b := by
  intro cl hcl
  cases rid with
  | duplicates =>
    simp only [ruleFlagCol] at hcl
    split at hcl <;>
      (obtain ⟨x, _, rfl⟩ := List.mem_map.mp hcl; exact ⟨_, rfl⟩)
  | numericTypes =>
    simp only [ruleFlagCol] at hcl
    obtain ⟨r, _, rfl⟩ := List.mem_map.mp hcl
    exact ⟨_, rfl⟩
  | priceRange =>
    simp only [ruleFlagCol] at hcl
    obtain ⟨r, _, rfl⟩ := List.mem_map.mp hcl
    exact ⟨_, rfl⟩
  | marketCap =>
    simp only [ruleFlagCol] at hcl
    obtain ⟨r, _, rfl⟩ := List.mem_map.mp hcl
    exact ⟨_, rfl⟩
  | missingValues =>
    simp only [ruleFlagCol] at hcl
    obtain ⟨r, _, rfl⟩ := List.mem_map.mp hcl
    exact ⟨_, rfl⟩

set_option maxRecDepth 4000 in
/-- C8 counterexample: on a zero-row batch with all required columns, running
the five rules with the first two swapped yields a batch that is not equal to
the one from the pipeline order — each rule appends its flag column at the
end, so the column order records the execution order. -/
theorem C8_counterexample :
    runRules [RuleId.priceRange, RuleId.numericTypes, RuleId.marketCap,
      RuleId.missingValues, RuleId.duplicates]
      (DF.mk ["id", "symbol", "name", "current_price", "market_cap",
        "total_volume", "circulating_supply"] []) ≠
    runRules allRules
      (DF.mk ["id", "symbol", "name", "current_price", "market_cap",
        "total_volume", "circulating_supply"] []) := by decide

/-- C8 as amended: on an aligned batch carrying the 7 required columns and
none of the flag columns, every permutation of the five rules runs without
fault, and any two orders yield the same flagged batch up to column order:
the same row count, the same column set, and identical cell lists per column.
Each run leaves the values of every pre-existing column and the row count
unchanged, gives each rule's flag column exactly its per-row flags computed
from the input batch, all of whose cells are booleans, and adds exactly the
five flag names to the column set. -/
theorem C8_order_independence (df : DF) (hA : df.Aligned)
    (hreq : ∀ c ∈ REQUIRED_FIELDS, c ∈ df.cols)
    (hfresh : ∀ rid : RuleId, flagName rid ∉ df.cols)
    (l1 l2 : List RuleId) (hp1 : l1.Perm allRules) (hp2 : l2.Perm allRules) :
    ∃ d1 d2, runRules l1 df = some d1 ∧ runRules l2 df = some d2 ∧
      DF.ContentEq d1 d2 ∧
      (∀ c ∈ df.cols, colCells d1 c = colCells df c) ∧
      d1.rows.length = df.rows.length ∧
      (∀ rid : RuleId, colCells d1 (flagName rid) = ruleFlagCol df rid) ∧
      (∀ rid : RuleId, ∀ cl ∈ colCells d1 (flagName rid), ∃ b, cl = Cell.bool b) ∧
      (∀ c : String, c ∈ d1.cols ↔
        (c ∈ df.cols ∨ ∃ rid : RuleId, flagName rid = c)) := by
  have hn1 : l1.Nodup := hp1.nodup_iff.mpr allRules_nodup
  have hn2 : l2.Nodup := hp2.nodup_iff.mpr allRules_nodup
  have e1 : runRules l1 df = some (extendDF df l1) := by
    have h := runRules_from df hA hreq hfresh l1 [] (by simpa using hn1)
    simpa using h
  have e2 : runRules l2 df = some (extendDF df l2) := by
    have h := runRules_from df hA hreq hfresh l2 [] (by simpa using hn2)
    simpa using h
  obtain ⟨b1, b2, b3, b4, b5, b6⟩ := extendDF_facts df hA hfresh l1 hn1
  obtain ⟨c1, c2, c3, c4, c5, c6⟩ := extendDF_facts df hA hfresh l2 hn2
  refine ⟨extendDF df l1, extendDF df l2, e1, e2, ⟨?_, ?_, ?_⟩, ?_, b2, ?_, ?_,
    ?_⟩
  · rw [b2, c2]
  · intro c
    rw [b3 c, c3 c]
    constructor
    · rintro (h | ⟨rid, _, heq⟩)
      · exact Or.inl h
      · exact Or.inr ⟨rid, hp2.mem_iff.mpr (rid_mem_allRules rid), heq⟩
    · rintro (h | ⟨rid, _, heq⟩)
      · exact Or.inl h
      · exact Or.inr ⟨rid, hp1.mem_iff.mpr (rid_mem_allRules rid), heq⟩
  · intro c
    by_cases hc : ∀ rid : RuleId, c ≠ flagName rid
    · rw [b6 c hc, c6 c hc]
    · push_neg at hc
      obtain ⟨rid, heq⟩ := hc
      subst heq
      rw [b5 rid (hp1.mem_iff.mpr (rid_mem_allRules rid)),
        c5 rid (hp2.mem_iff.mpr (rid_mem_allRules rid))]
  · intro c hcmem
    refine b6 c ?_
    intro rid heq
    exact hfresh rid (heq ▸ hcmem)
  · intro rid
    exact b5 rid (hp1.mem_iff.mpr (rid_mem_allRules rid))
  · intro rid cl hcl
    rw [b5 rid (hp1.mem_iff.mpr (rid_mem_allRules rid))] at hcl
    exact ruleFlagCol_bool df rid cl hcl
  · intro c
    rw [b3 c]
    constructor
    · rintro (h | ⟨rid, _, heq⟩)
      · exact Or.inl h
      · exact Or.inr ⟨rid, heq⟩
    · rintro (h | ⟨rid, heq⟩)
      · exact Or.inl h
      · exact Or.inr ⟨rid, hp1.mem_iff.mpr (rid_mem_allRules rid), heq⟩

/-- C8 witness: on the one-row sample batch, the pipeline order and its
reverse both run and produce content-equal flagged batches. -/
theorem C8_order_independence_witness :
    ∃ d1 d2, runRules allRules sampleDF = some d1 ∧
      runRules allRules.reverse sampleDF = some d2 ∧
      DF.ContentEq d1 d2 ∧
      (∀ c ∈ sampleDF.cols, colCells d1 c = colCells sampleDF c) ∧
      d1.rows.length = sampleDF.rows.length ∧
      (∀ rid : RuleId, colCells d1 (flagName rid) = ruleFlagCol sampleDF rid) ∧
      (∀ rid : RuleId, ∀ cl ∈ colCells d1 (flagName rid), ∃ b, cl = Cell.bool b) ∧
      (∀ c : String, c ∈ d1.cols ↔
        (c ∈ sampleDF.cols ∨ ∃ rid : RuleId, flagName rid = c)) :=
  C8_order_independence sampleDF (by decide) (by decide)
    (by intro rid; cases rid <;> decide) allRules allRules.reverse
    (List.Perm.refl _) (List.reverse_perm _)

end CryptoValidator
